import Mathlib

/-!
# Verification of the conversational sales-agent lead-qualification engine

This file gives a shallow embedding, in Lean 4, of the deterministic core of
the conversational sales-agent system: the per-field slot extractors of
`app.py` (`extract_user_details_from_user_message`, `extract_user_details`),
of `root_agent_system.py` (`BaseStageAgent.extract_info_from_message`) and of
`graph.py` (`GreetingAgent._extract_name`, `InfoCollectionAgent._extract_info`),
the collected-details update logic of `state_manager.py`
(`update_collected_details`, the "safe update" loop of the agent-reply path),
the confirmation state machines (`ConfirmationAgent` in both agent layers and
the `confirm` branches of the HTTP `/chat` route and of the WebSocket
`send_message` handler), the CSV persistence of confirmed leads
(`save_to_csv`, `clean_incomplete_csv_entries`) and the inactivity follow-up
scheduler (`follow_up_checker` together with `StateManager`'s activity
tracker).

Strings are modelled as `List Char`.  Python string operations
(`lower`, `strip`, `title`, `split`, `isalpha`, substring membership) are
modelled for the ASCII fragment actually exercised by the system.  The
regular-expression searches of the source are modelled by a small
backtracking matcher: a component matcher returns the list of possible
(consumed text, remaining text) splits in the engine's preference order
(greedy, leftmost alternative first), and a pattern search scans match start
positions left to right, exactly as `re.search` does for the patterns used
in the source (which combine only literals, alternation, optional pieces and
greedy character classes).

Database writes, WebSocket emission, logging and the RAG/LLM collaborators
are external to every claim treated here and are not modelled; the functions
below carry exactly the state the source mutates through `state_manager` and
the `leads.csv` file.
-/

namespace SalesAgent

/-! ## Python string primitives (ASCII fragment) -/

/-- ASCII decimal digit test, the `\d` class and `str.isdigit` for ASCII. -/
def isDigitC (c : Char) : Bool := 48 ≤ c.toNat && c.toNat ≤ 57

def isLowerC (c : Char) : Bool := 97 ≤ c.toNat && c.toNat ≤ 122

def isUpperC (c : Char) : Bool := 65 ≤ c.toNat && c.toNat ≤ 90

/-- ASCII letter test, the `[a-zA-Z]` class and `str.isalpha` per character. -/
def isAlphaC (c : Char) : Bool := isLowerC c || isUpperC c

/-- The regex `\w` class: letters, digits and underscore. -/
def isWordC (c : Char) : Bool := isAlphaC c || isDigitC c || c == '_'

/-- Python whitespace (`str.strip`, `str.split`, the regex `\s` class). -/
def isSpaceC (c : Char) : Bool :=
  c == ' ' || c == '\t' || c == '\n' || c == '\r' || c == '\x0b' || c == '\x0c'

/-- `str.lower` per character (ASCII). -/
def lowerC (c : Char) : Char :=
  if isUpperC c then Char.ofNat (c.toNat + 32) else c

/-- `str.upper` per character (ASCII). -/
def upperC (c : Char) : Char :=
  if isLowerC c then Char.ofNat (c.toNat - 32) else c

/-- `str.lower`. -/
def lowerL (s : List Char) : List Char := s.map lowerC

/-- `str.strip`: drop leading and trailing whitespace. -/
def stripL (s : List Char) : List Char :=
  ((s.dropWhile isSpaceC).reverse.dropWhile isSpaceC).reverse

/-- Helper for `titleL`: the boolean records whether the previous character
was alphabetic (Python upper-cases an alphabetic character exactly when the
previous character is not cased). -/
def titleGo : Bool → List Char → List Char
  | _, [] => []
  | prevAlpha, c :: rest =>
    (if isAlphaC c then (if prevAlpha then lowerC c else upperC c) else c)
      :: titleGo (isAlphaC c) rest

/-- `str.title` (ASCII). -/
def titleL (s : List Char) : List Char := titleGo false s

/-- Helper for `splitWs`, accumulating the current token in reverse. -/
def splitWsAux : List Char → List Char → List (List Char)
  | [], cur => if cur.isEmpty then [] else [cur.reverse]
  | c :: rest, cur =>
    if isSpaceC c then
      if cur.isEmpty then splitWsAux rest [] else cur.reverse :: splitWsAux rest []
    else splitWsAux rest (c :: cur)

/-- `str.split()` with no argument: split on whitespace runs, no empty tokens. -/
def splitWs (s : List Char) : List (List Char) := splitWsAux s []

/-- Decimal value of a digit string, Python's `int` on a digit literal. -/
def digitsToNat (s : List Char) : Nat :=
  s.foldl (fun n c => 10 * n + (c.toNat - '0'.toNat)) 0

/-- Decimal rendering of a natural number, Python's `str` on an `int`. -/
def natToDigits (n : Nat) : List Char := (Nat.repr n).data

/-- Boolean list-prefix test (used by the literal matchers below). -/
def isPrefixL : List Char → List Char → Bool
  | [], _ => true
  | _ :: _, [] => false
  | a :: as, b :: bs => a == b && isPrefixL as bs

/-- Python's `needle in haystack` substring test. -/
def containsSub (needle : List Char) : List Char → Bool
  | [] => needle.isEmpty
  | c :: rest => isPrefixL needle (c :: rest) || containsSub needle rest

/-- Abbreviation turning a string literal into the `List Char` model. -/
def strL (s : String) : List Char := s.data

/-! ## A small backtracking regex engine

A `Matcher` models one regex component: it maps an input suffix to the list
of `(consumed, rest)` splits it can produce, ordered by the backtracking
engine's preference (greedy repetitions produce the longest split first,
alternations are tried left to right).  Sequencing two components
concatenates their preference orders exactly as the engine backtracks.  The
patterns appearing in the source combine only literals, alternation,
optional pieces and greedy character classes, for which this model coincides
with Python `re` semantics. -/

def Matcher : Type := List Char → List (List Char × List Char)

/-- Case-sensitive literal. -/
def mLit (lit : List Char) : Matcher := fun s =>
  if isPrefixL lit s then [(s.take lit.length, s.drop lit.length)] else []

/-- Case-insensitive literal (the `re.IGNORECASE` searches); `lit` is given
in lower case and the consumed text keeps the subject's original case. -/
def mLitCI (lit : List Char) : Matcher := fun s =>
  let pre := s.take lit.length
  if pre.length == lit.length && (pre.map lowerC == lit) then
    [(pre, s.drop lit.length)]
  else []

/-- Empty component (consumes nothing). -/
def mEps : Matcher := fun s => [([], s)]

/-- End-of-subject anchor `$`. -/
def mEnd : Matcher := fun s => if s.isEmpty then [([], s)] else []

/-- Sequencing with full backtracking. -/
def mSeq (a b : Matcher) : Matcher := fun s =>
  (a s).flatMap fun p => (b p.2).map fun q => (p.1 ++ q.1, q.2)

/-- Ordered alternation `(?:x|y|…)`. -/
def mAlt (ms : List Matcher) : Matcher := fun s => (ms.map fun m => m s).flatten

/-- Greedy `cls*`: all splits of the maximal run, longest first. -/
def mStar (cls : Char → Bool) : Matcher := fun s =>
  (List.range ((s.takeWhile cls).length + 1)).map fun i =>
    (s.take ((s.takeWhile cls).length - i), s.drop ((s.takeWhile cls).length - i))

/-- Greedy `cls+`: like `mStar` but at least one character. -/
def mPlus (cls : Char → Bool) : Matcher := fun s =>
  (List.range (s.takeWhile cls).length).map fun i =>
    (s.take ((s.takeWhile cls).length - i), s.drop ((s.takeWhile cls).length - i))

/-- Optional component `x?` (greedy: present first). -/
def mOpt (m : Matcher) : Matcher := fun s => m s ++ [([], s)]

/-- Try a full pattern (prefix part, capture group, suffix part) at the
current position; returns the first capture in backtracking order. -/
def matchHere (pre grp suf : Matcher) (s : List Char) : Option (List Char) :=
  ((pre s).flatMap fun p =>
    (grp p.2).flatMap fun g => (suf g.2).map fun _ => g.1).head?

/-- `re.search`: scan match start positions left to right. -/
def searchPat (pre grp suf : Matcher) : List Char → Option (List Char)
  | [] => matchHere pre grp suf []
  | c :: rest =>
    match matchHere pre grp suf (c :: rest) with
    | some g => some g
    | none => searchPat pre grp suf rest

/-! ## The `\b(\d{1,3})\b` search shared by `root_agent_system.py` and
`graph.py` age extraction.

`tryNumLen s k` attempts a `k`-digit match at the head of `s` whose next
character (if any) is not a word character; `matchNum13` applies the greedy
preference 3, 2, 1; `findNum13Aux` scans positions left to right, tracking
the previous character so that the leading `\b` can be checked. -/

def tryNumLen (s : List Char) (k : Nat) : Option (List Char) :=
  let pre := s.take k
  if pre.length == k && pre.all isDigitC &&
      (match s.drop k with
       | [] => true
       | d :: _ => !isWordC d) then
    some pre
  else none

def matchNum13 (s : List Char) : Option (List Char) :=
  match tryNumLen s 3 with
  | some m => some m
  | none =>
    match tryNumLen s 2 with
    | some m => some m
    | none => tryNumLen s 1

def findNum13Aux : Option Char → List Char → Option (List Char)
  | _, [] => none
  | prev, c :: rest =>
    let boundary := match prev with
      | none => true
      | some p => !isWordC p
    match (if boundary then matchNum13 (c :: rest) else none) with
    | some m => some m
    | none => findNum13Aux (some c) rest

/-- `re.search(r'\b(\d{1,3})\b', s)`: the first boundary-delimited run of one
to three digits. -/
def findNum13 (s : List Char) : Option (List Char) := findNum13Aux none s

/-- The apostrophe character. -/
def apoC : Char := Char.ofNat 39

/-- Like `strL`, but a tilde in the literal stands for an apostrophe
(several source patterns and templates contain apostrophes). -/
def strQ (s : String) : List Char :=
  s.data.map fun c => if c == '~' then apoC else c

/-! ## Collected details and the `StateManager` update logic
(`state_manager.py`) -/

/-- The `collected_details` dictionary of a `ConversationState`: the four
slots, each possibly unset (`None`). -/
structure Details where
  name : Option (List Char) := none
  age : Option (List Char) := none
  country : Option (List Char) := none
  interest : Option (List Char) := none
deriving DecidableEq, Repr

/-- Python truthiness of a slot value (`None` and the empty string are
falsy). -/
def truthy : Option (List Char) → Bool
  | none => false
  | some v => !v.isEmpty

/-- `StateManager.update_collected_details`, the in-memory part: each truthy
value in `upd` overwrites the slot, everything else is kept. -/
def update_collected_details (cur upd : Details) : Details :=
  { name := if truthy upd.name then upd.name else cur.name
    age := if truthy upd.age then upd.age else cur.age
    country := if truthy upd.country then upd.country else cur.country
    interest := if truthy upd.interest then upd.interest else cur.interest }

/-- `StateManager.are_details_complete`. -/
def are_details_complete (d : Details) : Bool :=
  truthy d.name && truthy d.age && truthy d.country && truthy d.interest

/-- `dict` truthiness of an extraction result: at least one key present. -/
def hasAnyDelta (d : Details) : Bool :=
  d.name.isSome || d.age.isSome || d.country.isSome || d.interest.isSome

/-- The guard of the "safe update" loops in `app.py`
(`not current_details.get(key) or len(str(current_details.get(key))) < 2`). -/
def okToOverwrite : Option (List Char) → Bool
  | none => true
  | some v => v.isEmpty || decide (v.length < 2)

/-- The "safe update" loop run on agent-reply extractions in `app.py`
(`chat`, `conversation`, `handle_send_message`): a value from the agent
reply is kept only when the current slot is falsy or shorter than two
characters. -/
def safeUpdateDelta (cur agentD : Details) : Details :=
  { name := if truthy agentD.name && okToOverwrite cur.name then agentD.name else none
    age := if truthy agentD.age && okToOverwrite cur.age then agentD.age else none
    country := if truthy agentD.country && okToOverwrite cur.country then agentD.country else none
    interest := if truthy agentD.interest && okToOverwrite cur.interest then agentD.interest else none }

/-! ## `extract_user_details_from_user_message` (`app.py`)

The single-focus user-message extractor: exactly one field is attempted,
namely the first unset one in name → age → country → interest order; the
returned `Details` holds at most that one field. -/

/-- The `[a-zA-Z\s]` class. -/
def alphaSpaceC (c : Char) : Bool := isAlphaC c || isSpaceC c

/-- `(?:my name is|i'm|i am|call me|name's)\s+([a-zA-Z]+)`. -/
def appNamePat1 (ml : List Char) : Option (List Char) :=
  searchPat
    (mSeq (mAlt [mLit (strL "my name is"), mLit (strQ "i~m"), mLit (strL "i am"),
                 mLit (strL "call me"), mLit (strQ "name~s")])
          (mPlus isSpaceC))
    (mPlus isAlphaC) mEps ml

/-- `([a-zA-Z]+)\s+is my name`. -/
def appNamePat2 (ml : List Char) : Option (List Char) :=
  searchPat mEps (mPlus isAlphaC)
    (mSeq (mPlus isSpaceC) (mLit (strL "is my name"))) ml

/-- `^([a-zA-Z]+)$`. -/
def appNamePat3 (ml : List Char) : Option (List Char) :=
  matchHere mEps (mPlus isAlphaC) mEnd ml

/-- The `invalid_names` stoplist of `extract_user_details_from_user_message`. -/
def invalidNames : List (List Char) :=
  [strL "hi", strL "hello", strL "hey", strL "yes", strL "no", strL "ok",
   strL "sure", strL "good", strL "great", strL "fine", strL "well",
   strL "glad", strL "happy", strL "nice", strL "thanks", strL "thank",
   strL "that", strL "this", strL "hear", strL "you", strL "me", strL "we",
   strL "they"]

/-- The additional substring blocklist
(`any(invalid in name.lower() for invalid in ['glad','hear','that','thanks'])`). -/
def nameSubstringBlock : List (List Char) :=
  [strL "glad", strL "hear", strL "that", strL "thanks"]

/-- The name validation of `extract_user_details_from_user_message`:
length 2–15, alphabetic, not in the stoplist, no blocked substring. -/
def validNameApp (n : List Char) : Bool :=
  decide (2 ≤ n.length) && decide (n.length ≤ 15) && !n.isEmpty &&
  n.all isAlphaC && !(invalidNames.contains (lowerL n)) &&
  !(nameSubstringBlock.any fun b => containsSub b (lowerL n))

/-- The `for pattern in name_patterns` loop: the first pattern whose match
passes validation wins; a match that fails validation falls through to the
next pattern. -/
def appNameLoop : List (Option (List Char)) → Option (List Char)
  | [] => none
  | none :: rest => appNameLoop rest
  | some g :: rest =>
    let n := titleL (stripL g)
    if validNameApp n then some n else appNameLoop rest

/-- The name branch of `extract_user_details_from_user_message`. -/
def appExtractName (ml : List Char) : Option (List Char) :=
  appNameLoop [appNamePat1 ml, appNamePat2 ml, appNamePat3 ml]

/-- `(?:i'm|i am|my age is)\s*(\d+)`. -/
def appAgePat1 (ml : List Char) : Option (List Char) :=
  searchPat
    (mSeq (mAlt [mLit (strQ "i~m"), mLit (strL "i am"), mLit (strL "my age is")])
          (mStar isSpaceC))
    (mPlus isDigitC) mEps ml

/-- `(\d+)\s*(?:years old|yo)`. -/
def appAgePat2 (ml : List Char) : Option (List Char) :=
  searchPat mEps (mPlus isDigitC)
    (mSeq (mStar isSpaceC) (mAlt [mLit (strL "years old"), mLit (strL "yo")])) ml

/-- `^(\d+)$`. -/
def appAgePat3 (ml : List Char) : Option (List Char) :=
  matchHere mEps (mPlus isDigitC) mEnd ml

/-- The `for pattern in age_patterns` loop with the range check
`13 <= int(age) <= 120`. -/
def appAgeLoop : List (Option (List Char)) → Option (List Char)
  | [] => none
  | none :: rest => appAgeLoop rest
  | some g :: rest =>
    if decide (13 ≤ digitsToNat g) && decide (digitsToNat g ≤ 120) then some g
    else appAgeLoop rest

/-- The age branch of `extract_user_details_from_user_message`. -/
def appExtractAge (ml : List Char) : Option (List Char) :=
  appAgeLoop [appAgePat1 ml, appAgePat2 ml, appAgePat3 ml]

/-- `(?:i'm from|from|i live in|in)\s+([a-zA-Z\s]+)`. -/
def appCountryPat1 (ml : List Char) : Option (List Char) :=
  searchPat
    (mSeq (mAlt [mLit (strQ "i~m from"), mLit (strL "from"),
                 mLit (strL "i live in"), mLit (strL "in")])
          (mPlus isSpaceC))
    (mPlus alphaSpaceC) mEps ml

/-- `^([a-zA-Z\s]+)$`. -/
def appCountryPat2 (ml : List Char) : Option (List Char) :=
  matchHere mEps (mPlus alphaSpaceC) mEnd ml

/-- The country loop: candidate is stripped and title-cased, accepted when
longer than two characters. -/
def appCountryLoop : List (Option (List Char)) → Option (List Char)
  | [] => none
  | none :: rest => appCountryLoop rest
  | some g :: rest =>
    let c := titleL (stripL g)
    if decide (2 < c.length) then some c else appCountryLoop rest

/-- The country branch of `extract_user_details_from_user_message`. -/
def appExtractCountry (ml : List Char) : Option (List Char) :=
  appCountryLoop [appCountryPat1 ml, appCountryPat2 ml]

def techKeywords : List (List Char) :=
  [strL "technology", strL "tech", strL "smartphone", strL "laptop",
   strL "computer", strL "phone", strL "electronics"]

def fashionKeywords : List (List Char) :=
  [strL "fashion", strL "clothes", strL "clothing", strL "dress",
   strL "shirt", strL "shoes", strL "accessories"]

def homeKeywords : List (List Char) :=
  [strL "home", strL "furniture", strL "decoration", strL "living",
   strL "kitchen", strL "bedroom"]

/-- `(?:interested in|looking for|want|need)\s+([a-zA-Z\s]+)`. -/
def appInterestPat1 (ml : List Char) : Option (List Char) :=
  searchPat
    (mSeq (mAlt [mLit (strL "interested in"), mLit (strL "looking for"),
                 mLit (strL "want"), mLit (strL "need")])
          (mPlus isSpaceC))
    (mPlus alphaSpaceC) mEps ml

/-- `^([a-zA-Z\s]+)$`. -/
def appInterestPat2 (ml : List Char) : Option (List Char) :=
  matchHere mEps (mPlus alphaSpaceC) mEnd ml

/-- `['yes', 'no', 'ok', 'sure']`: the only values the free-form interest
fallback of `extract_user_details_from_user_message` rejects besides short
ones. -/
def interestSmallBlock : List (List Char) :=
  [strL "yes", strL "no", strL "ok", strL "sure"]

/-- The interest pattern loop: candidate is stripped, accepted (title-cased)
when longer than two characters and not in the four-word blocklist. -/
def appInterestLoop : List (Option (List Char)) → Option (List Char)
  | [] => none
  | none :: rest => appInterestLoop rest
  | some g :: rest =>
    let i := stripL g
    if decide (2 < i.length) && !(interestSmallBlock.contains i) then
      some (titleL i)
    else appInterestLoop rest

/-- The interest branch of `extract_user_details_from_user_message`:
category keyword sets first (normalising to a canonical label), then the
intent patterns / whole-message fallback. -/
def appExtractInterest (ml : List Char) : Option (List Char) :=
  if techKeywords.any (fun k => containsSub k ml) then some (strL "Technology")
  else if fashionKeywords.any (fun k => containsSub k ml) then some (strL "Fashion")
  else if homeKeywords.any (fun k => containsSub k ml) then some (strL "Home & Living")
  else appInterestLoop [appInterestPat1 ml, appInterestPat2 ml]

/-- `extract_user_details_from_user_message` (`app.py`): lower-cases and
strips the message, then attempts exactly the first unset field in
name → age → country → interest order. -/
def extract_user_details_from_user_message (cur : Details) (message : List Char) :
    Details :=
  let ml := stripL (lowerL message)
  if !truthy cur.name then { name := appExtractName ml }
  else if !truthy cur.age then { age := appExtractAge ml }
  else if !truthy cur.country then { country := appExtractCountry ml }
  else if !truthy cur.interest then { interest := appExtractInterest ml }
  else {}

/-! ## `extract_user_details` (`app.py`): extraction from agent replies

This extractor runs on agent-generated text: the message is cleaned
(`re.sub(r'\*\*', '', …)` and removal of `^\s*-\s*` bullet prefixes in
MULTILINE mode), gated on containing one of the summary keywords, and then
searched with `re.IGNORECASE` patterns; all four fields are attempted. -/

/-- `re.sub(r'\*\*', '', message)`: delete non-overlapping `**` pairs. -/
def removeDoubleStars : List Char → List Char
  | [] => []
  | '*' :: '*' :: rest => removeDoubleStars rest
  | c :: rest => c :: removeDoubleStars rest

/-- One step of `re.sub(r'^\s*-\s*', '', …, flags=re.MULTILINE)`: at a `^`
position, try to consume `\s*-\s*`; returns the remainder together with
whether the consumed text ended in a newline (which re-enables `^` at the
continuation point). -/
def bulletAt (s : List Char) : Option (Bool × List Char) :=
  let ws1 := s.takeWhile isSpaceC
  match s.drop ws1.length with
  | '-' :: r2 =>
    let ws2 := r2.takeWhile isSpaceC
    some (ws2.getLast? == some '\n', r2.drop ws2.length)
  | _ => none

/-- The MULTILINE bullet-prefix substitution, scanning left to right; the
boolean tracks whether the current position is a `^` position.  The fuel is
one more than the remaining length, so it never runs out. -/
def subBulletFuel : Nat → Bool → List Char → List Char
  | 0, _, s => s
  | fuel + 1, atStart, s =>
    match s with
    | [] => []
    | c :: rest =>
      if atStart then
        match bulletAt (c :: rest) with
        | some (nl, r3) => subBulletFuel fuel nl r3
        | none => c :: subBulletFuel fuel (c == '\n') rest
      else c :: subBulletFuel fuel (c == '\n') rest

def subBullets (s : List Char) : List Char := subBulletFuel (s.length + 1) true s

/-- The summary-keyword gate of `extract_user_details`. -/
def agentGateKeywords : List (List Char) :=
  [strL "name:", strL "age:", strL "country:", strL "details:",
   strL "information:"]

/-- The `[^\n\.,]` class. -/
def notNlDotComma (c : Char) : Bool := !(c == '\n' || c == '.' || c == ',')

/-- The `[^\n\.,\-]` class. -/
def notNlDotCommaDash (c : Char) : Bool :=
  !(c == '\n' || c == '.' || c == ',' || c == '-')

/-- `\s+`. -/
def wsP : Matcher := mPlus isSpaceC

/-- `\s*`. -/
def wsS : Matcher := mStar isSpaceC

/-- `(?:your|the|their|customer\'?s?)` (case-insensitive). -/
def ownerAlt : Matcher :=
  mAlt [mLitCI (strL "your"), mLitCI (strL "the"), mLitCI (strL "their"),
        mSeq (mLitCI (strL "customer"))
             (mSeq (mOpt (mLit [apoC])) (mOpt (mLitCI (strL "s"))))]

/-- `(?:your|…)\s*FIELD:?\s*([^\n\.,]+)` for a field label. -/
def agentOwnedFieldPat (label : List Char) (s : List Char) : Option (List Char) :=
  searchPat
    (mSeq (mSeq ownerAlt wsS)
          (mSeq (mSeq (mLitCI label) (mOpt (mLitCI (strL ":")))) wsS))
    (mPlus notNlDotComma) mEps s

/-- `FIELD:?\s*([^\n\.,\-]+)` for a field label. -/
def agentBareFieldPat (label : List Char) (s : List Char) : Option (List Char) :=
  searchPat
    (mSeq (mLitCI label) (mSeq (mOpt (mLitCI (strL ":"))) wsS))
    (mPlus notNlDotCommaDash) mEps s

/-- `I\'m\s+([^\n\.,]+)(?:\s+and\s+I\'m|\s*,)`. -/
def agentNamePat3 (s : List Char) : Option (List Char) :=
  searchPat (mSeq (mLitCI (strQ "i~m")) wsP) (mPlus notNlDotComma)
    (mAlt [mSeq wsP (mSeq (mLitCI (strL "and")) (mSeq wsP (mLitCI (strQ "i~m")))),
           mSeq wsS (mLitCI (strL ","))]) s

/-- `My\s+name\s+is\s+([^\n\.,]+)`. -/
def agentNamePat4 (s : List Char) : Option (List Char) :=
  searchPat
    (mSeq (mLitCI (strL "my"))
          (mSeq wsP (mSeq (mLitCI (strL "name"))
                          (mSeq wsP (mSeq (mLitCI (strL "is")) wsP)))))
    (mPlus notNlDotComma) mEps s

/-- `\s+years?\s+old`. -/
def yearsOldSuf : Matcher :=
  mSeq wsP (mSeq (mSeq (mLitCI (strL "year")) (mOpt (mLitCI (strL "s"))))
                 (mSeq wsP (mLitCI (strL "old"))))

/-- `I\'m\s+(\d+)\s+years?\s+old`. -/
def agentAgePat3 (s : List Char) : Option (List Char) :=
  searchPat (mSeq (mLitCI (strQ "i~m")) wsP) (mPlus isDigitC) yearsOldSuf s

/-- `(\d+)\s+years?\s+old`. -/
def agentAgePat4 (s : List Char) : Option (List Char) :=
  searchPat mEps (mPlus isDigitC) yearsOldSuf s

/-- `I\'m\s+from\s+([^\n\.,]+)`. -/
def agentCountryPat3 (s : List Char) : Option (List Char) :=
  searchPat
    (mSeq (mLitCI (strQ "i~m")) (mSeq wsP (mSeq (mLitCI (strL "from")) wsP)))
    (mPlus notNlDotComma) mEps s

/-- `from\s+([^\n\.,]+)`. -/
def agentCountryPat4 (s : List Char) : Option (List Char) :=
  searchPat (mSeq (mLitCI (strL "from")) wsP) (mPlus notNlDotComma) mEps s

/-- `(?:product\s*)?interest:?\s*([^\n\.,]+)`. -/
def agentInterestPat1 (s : List Char) : Option (List Char) :=
  searchPat
    (mSeq (mOpt (mSeq (mLitCI (strL "product")) wsS))
          (mSeq (mLitCI (strL "interest")) (mSeq (mOpt (mLitCI (strL ":"))) wsS)))
    (mPlus notNlDotComma) mEps s

/-- `LIT\s+([^\n\.,]+)` for the remaining interest intent patterns. -/
def agentIntentPat (pre : Matcher) (s : List Char) : Option (List Char) :=
  searchPat (mSeq pre wsP) (mPlus notNlDotComma) mEps s

/-- `re.search(r'\?|what|how|when|where|why', …, re.IGNORECASE)` as a
substring test on the lower-cased candidate. -/
def questionWords : List (List Char) :=
  [strL "?", strL "what", strL "how", strL "when", strL "where", strL "why"]

def hasQuestionWord (cand : List Char) : Bool :=
  questionWords.any fun w => containsSub w (lowerL cand)

/-- The `invalid_phrases` list of the agent-reply name validation. -/
def agentNameInvalidPhrases : List (List Char) :=
  [strL "glad to hear", strL "nice to meet", strL "great to", strL "happy to",
   strL "good to", strL "thanks", strL "thank you"]

/-- The agent-reply name validation. -/
def validAgentName (cand : List Char) : Bool :=
  !hasQuestionWord cand &&
  !(agentNameInvalidPhrases.any fun p => containsSub p (lowerL cand)) &&
  decide ((splitWs cand).length ≤ 3)

/-- Name loop of `extract_user_details`. -/
def agentNameLoop : List (Option (List Char)) → Option (List Char)
  | [] => none
  | none :: rest => agentNameLoop rest
  | some g :: rest =>
    let cand := stripL g
    if validAgentName cand then some cand else agentNameLoop rest

/-- First run of digits in a string (`re.search(r'(\d+)', …)`). -/
def firstDigitRun : List Char → Option (List Char)
  | [] => none
  | c :: rest =>
    if isDigitC c then some ((c :: rest).takeWhile isDigitC)
    else firstDigitRun rest

/-- Age loop of `extract_user_details`: a candidate containing a digit
contributes its first digit run. -/
def agentAgeLoop : List (Option (List Char)) → Option (List Char)
  | [] => none
  | none :: rest => agentAgeLoop rest
  | some g :: rest =>
    let cand := stripL g
    match firstDigitRun cand with
    | some d => some d
    | none => agentAgeLoop rest

/-- Country loop of `extract_user_details`. -/
def agentCountryLoop : List (Option (List Char)) → Option (List Char)
  | [] => none
  | none :: rest => agentCountryLoop rest
  | some g :: rest =>
    let cand := stripL g
    if !hasQuestionWord cand then some cand else agentCountryLoop rest

/-- The `invalid_phrases` blocklist of the agent-reply interest validation. -/
def agentInterestInvalid : List (List Char) :=
  [strL "some things", strL "some products", strL "something", strL "anything",
   strL "everything", strL "what do you have", strL "suggestions",
   strL "options", strL "catalog", strL "products", strL "you", strL "me",
   strL "us", strL "them", strL "it", strL "that", strL "this", strL "more"]

/-- The question/request test of the agent-reply interest validation. -/
def interestQuestionWords : List (List Char) :=
  [strL "?", strL "what", strL "how", strL "when", strL "where", strL "why",
   strL "can you", strL "could you", strL "please"]

/-- The agent-reply interest validation (`is_valid_interest`). -/
def validAgentInterest (cand : List Char) : Bool :=
  decide (cand.length < 100) && decide (2 < cand.length) &&
  !(agentInterestInvalid.any fun p => containsSub p (lowerL cand)) &&
  !(interestQuestionWords.any fun w => containsSub w (lowerL cand))

/-- Interest loop of `extract_user_details`. -/
def agentInterestLoop : List (Option (List Char)) → Option (List Char)
  | [] => none
  | none :: rest => agentInterestLoop rest
  | some g :: rest =>
    let cand := stripL g
    if validAgentInterest cand then some cand else agentInterestLoop rest

/-- `extract_user_details` (`app.py`): extraction of all four fields from a
structured agent reply.  Returns the empty record when the summary-keyword
gate fails. -/
def extract_user_details (message : List Char) : Details :=
  let cm := subBullets (removeDoubleStars message)
  if !(agentGateKeywords.any fun k => containsSub k (lowerL message)) then {}
  else
    { name := agentNameLoop
        [agentOwnedFieldPat (strL "name") cm, agentBareFieldPat (strL "name") cm,
         agentNamePat3 cm, agentNamePat4 cm]
      age := agentAgeLoop
        [agentOwnedFieldPat (strL "age") cm, agentBareFieldPat (strL "age") cm,
         agentAgePat3 cm, agentAgePat4 cm]
      country := agentCountryLoop
        [agentOwnedFieldPat (strL "country") cm,
         agentBareFieldPat (strL "country") cm,
         agentCountryPat3 cm, agentCountryPat4 cm]
      interest := agentInterestLoop
        [agentInterestPat1 cm,
         agentIntentPat (mSeq (mLitCI (strL "interested"))
           (mSeq wsP (mLitCI (strL "in")))) cm,
         agentIntentPat (mSeq (mLitCI (strL "looking"))
           (mSeq wsP (mLitCI (strL "for")))) cm,
         agentIntentPat (mSeq (mLitCI (strL "want"))
           (mSeq wsP (mSeq (mLitCI (strL "to")) (mSeq wsP (mLitCI (strL "buy")))))) cm,
         agentIntentPat (mLitCI (strL "need")) cm] }

/-! ## Response composition and `call_agent_sync` (`app.py`) -/

/-- Python f-string rendering of a possibly-`None` slot value. -/
def pyVal : Option (List Char) → List Char
  | some v => v
  | none => strL "None"

/-- The `[.,;:!?]` class of `format_details_for_confirmation`. -/
def isPunctEndC (c : Char) : Bool :=
  c == '.' || c == ',' || c == ';' || c == ':' || c == '!' || c == '?'

/-- `re.sub(r'[.,;:!?]+$', '', v)`; the `$` anchor also matches just before
a final newline. -/
def removePunctEnd (v : List Char) : List Char :=
  match v.reverse with
  | '\n' :: r2 => (r2.dropWhile isPunctEndC).reverse ++ [('\n' : Char)]
  | r => (r.dropWhile isPunctEndC).reverse

/-- Per-value cleaning of `format_details_for_confirmation`. -/
def cleanedVal : Option (List Char) → List Char
  | some v => if v.isEmpty then strL "[Not provided]" else stripL (removePunctEnd v)
  | none => strL "[Not provided]"

/-- `format_details_for_confirmation` (`app.py`). -/
def format_details_for_confirmation (d : Details) : List Char :=
  strQ "Great! Let~s review the details you~ve provided:\n\n" ++
  strL "Your name: " ++ cleanedVal d.name ++ strL "\n" ++
  strL "Age: " ++ cleanedVal d.age ++ strL "\n" ++
  strL "Country: " ++ cleanedVal d.country ++ strL "\n" ++
  strL "Product interest: " ++ cleanedVal d.interest ++ strL "\n\n" ++
  strQ "Please confirm if the above details are correct by typing ~confirm~."

/-- The product-category menu of `generate_structured_response`. -/
def productMenuNow : List Char :=
  strL "📱 Technology (smartphones, laptops, electronics)\n🏠 Home & Living (furniture, storage, decor)\n👔 Fashion (clothing, shoes, accessories)\n\n" ++
  strQ "Or tell me about any specific product you~re looking for!"

/-- `generate_structured_response` (`app.py`). -/
def generate_structured_response (d : Details) (_userMessage : List Char) : List Char :=
  if truthy d.name && !truthy d.age then
    strL "Nice to meet you, " ++ pyVal d.name ++
    strL "! To help me find the perfect products for you, could you tell me your age?"
  else if truthy d.age && !truthy d.country then
    strL "Thank you, " ++ pyVal d.name ++ strQ "! So you~re " ++ pyVal d.age ++
    strL " years old. And which country are you from?"
  else if truthy d.country && !truthy d.interest then
    strQ "Great! So you~re " ++ pyVal d.name ++ strL ", " ++ pyVal d.age ++
    strL " years old, from " ++ pyVal d.country ++
    strL ". Now, what type of products are you most interested in?\n\n" ++ productMenuNow
  else if are_details_complete d then
    format_details_for_confirmation d
  else
    strQ "Thank you for sharing that information! Let me help you find what you~re looking for."

/-! ## Conversation state and the `/chat` and `send_message` handlers

`ConvState` carries the per-lead `ConversationState` fields the handlers
read or write through `state_manager`; timestamps are modelled only in the
follow-up scheduler section below, where they matter. -/

structure ConvState where
  currentStep : List Char := strL "greeting"
  details : Details := {}
  pending : Bool := false
  followUpCount : Nat := 0
  isActive : Bool := true
deriving DecidableEq, Repr

/-- `call_agent_sync` (`app.py`): the deterministic template-based reply
generator.  It reads only the collected details of the session state and
returns the reply together with the updated state. -/
def call_agent_sync (st : ConvState) (text : List Char) : List Char × ConvState :=
  let currentDetails := st.details
  let userDetails := extract_user_details_from_user_message currentDetails text
  if hasAnyDelta userDetails then
    let d := update_collected_details currentDetails userDetails
    (generate_structured_response d text, { st with details := d })
  else
    let tl := lowerL text
    let reply :=
      if truthy currentDetails.name && !truthy currentDetails.age then
        strL "Thanks for that, " ++ pyVal currentDetails.name ++
        strL "! To help me find the perfect products for you, could you tell me your age?"
      else if truthy currentDetails.name && truthy currentDetails.age &&
              !truthy currentDetails.country then
        strQ "Thank you! So you~re " ++ pyVal currentDetails.age ++
        strL " years old. Which country are you from, " ++ pyVal currentDetails.name ++ strL "?"
      else if truthy currentDetails.name && truthy currentDetails.age &&
              truthy currentDetails.country && !truthy currentDetails.interest then
        strQ "Great! So you~re " ++ pyVal currentDetails.name ++ strL ", " ++
        pyVal currentDetails.age ++ strL " years old, from " ++ pyVal currentDetails.country ++
        strL ". What type of products are you most interested in?\n\n" ++ productMenuNow
      else if are_details_complete currentDetails then
        format_details_for_confirmation currentDetails
      else
        if containsSub (strL "hi") tl || containsSub (strL "hello") tl then
          if truthy currentDetails.name then
            strL "Hello again, " ++ pyVal currentDetails.name ++ strL "! How can I help you today?"
          else
            strL "Hello! Nice to meet you. To help you find the perfect products, may I start by asking your name?"
        else if containsSub (strL "product") tl || containsSub (strL "recommend") tl ||
                containsSub (strL "suggest") tl then
          if truthy currentDetails.name then
            strQ "I~d be happy to recommend products! Let me just finish gathering your information first."
          else
            strQ "I~d be happy to recommend products! First, let me gather some information about you. What~s your name?"
        else if containsSub (strL "help") tl then
          strQ "I~m here to help you find the perfect products! Let~s start by getting to know you better. What~s your name?"
        else
          if truthy currentDetails.name then
            strL "Thanks for your message, " ++ pyVal currentDetails.name ++
            strL "! Let me continue helping you find great products."
          else
            strL "Thank you for your message! To help you find the perfect products, could you start by telling me your name?"
    (reply, st)

/-! ### The `leads.csv` model (`save_to_csv`, `clean_incomplete_csv_entries`)

The file is modelled as the list of its data rows (single lead, so the
`lead_id` column is omitted). -/

structure CsvRow where
  name : List Char := []
  age : List Char := []
  country : List Char := []
  interest : List Char := []
  status : List Char := []
deriving DecidableEq, Repr

/-- A `save_to_csv` field: `str(x).strip() if x else ""`. -/
def csvField : Option (List Char) → List Char
  | some v => if v.isEmpty then [] else stripL v
  | none => []

/-- `save_to_csv` (`app.py`): append one row. -/
def save_to_csv (rows : List CsvRow) (d : Details) (status : List Char) : List CsvRow :=
  rows ++ [{ name := csvField d.name, age := csvField d.age,
             country := csvField d.country, interest := csvField d.interest,
             status := status }]

/-- `clean_incomplete_csv_entries` (`app.py`): keep the rows whose age,
country and interest columns are all non-empty. -/
def clean_incomplete_csv_entries (rows : List CsvRow) : List CsvRow :=
  rows.filter fun r => !r.age.isEmpty && !r.country.isEmpty && !r.interest.isEmpty

/-! ### Confirmation replies (product recommendations) -/

def techRecsText : List Char :=
  strL "📱 Samsung Galaxy S24 ($799.99) - Latest smartphone with amazing camera\n📱 iPhone 15 Pro ($999.99) - Premium Apple device with titanium design\n💻 MacBook Pro M3 ($1,999.99) - Powerful laptop for professionals\n🎧 AirPods Pro ($249.99) - Premium wireless earbuds"

def fashionRecsText : List Char :=
  strQ "👔 Men~s Slim Fit Jeans ($49.99) - Comfortable premium denim\n👗 Designer Summer Dress ($89.99) - Elegant and stylish\n👟 Running Shoes ($79.99) - High-performance athletic footwear\n👜 Leather Handbag ($129.99) - Premium quality accessory"

def homeRecsText : List Char :=
  strL "🛏️ King Size Bed ($599.99) - Comfortable premium mattress\n🪑 Ergonomic Office Chair ($199.99) - Perfect for working from home\n🏠 Storage Solutions Set ($99.99) - Organize your space beautifully\n🍽️ Dinnerware Set ($79.99) - Elegant dining collection"

def genericRecsText : List Char :=
  strL "🛍️ Premium Product Bundle ($149.99) - Curated selection of popular items\n🎁 Gift Card ($50-500) - Perfect for any occasion\n⭐ Best Sellers Collection - Top-rated products across all categories\n📦 Starter Kit ($89.99) - Everything you need to get started"

def wsGenericRecsText : List Char :=
  strL "📱 Samsung Galaxy S24 ($799.99) - Latest smartphone with amazing camera\n🛍️ Premium Product Bundle ($149.99) - Curated selection of popular items\n🎁 Gift Card ($50-500) - Perfect for any occasion\n⭐ Best Sellers Collection - Top-rated products across all categories"

/-- Shared preamble of every confirmation reply. -/
def confirmPreamble (d : Details) : List Char :=
  strL "Thank you for confirming your details, " ++ pyVal d.name ++
  strL "! Your information has been saved successfully. " ++
  strL "Based on your interest in " ++ pyVal d.interest ++
  strL ", here are some great product recommendations:\n\n"

/-- The interest value, lower-cased, as `details['interest'].lower()`. -/
def interestLower (d : Details) : List Char :=
  match d.interest with
  | some v => lowerL v
  | none => []

/-- The `/chat` confirmation reply: category chosen by exact membership of
`details['interest'].lower()` in the keyword lists. -/
def chatConfirmReply (d : Details) : List Char :=
  confirmPreamble d ++
  (if techKeywords.contains (interestLower d) then techRecsText
   else if fashionKeywords.contains (interestLower d) then fashionRecsText
   else if homeKeywords.contains (interestLower d) then homeRecsText
   else genericRecsText)

/-- The WebSocket tech keyword list (it additionally contains `samsung`). -/
def wsTechKeywords : List (List Char) :=
  [strL "technology", strL "tech", strL "samsung", strL "phone",
   strL "smartphone", strL "laptop", strL "computer", strL "electronics"]

/-- The `send_message` confirmation reply: category chosen by substring
tests on `details['interest'].lower()`. -/
def wsConfirmReply (d : Details) : List Char :=
  confirmPreamble d ++
  (if wsTechKeywords.any (fun k => containsSub k (interestLower d)) then techRecsText
   else if fashionKeywords.any (fun k => containsSub k (interestLower d)) then fashionRecsText
   else if homeKeywords.any (fun k => containsSub k (interestLower d)) then homeRecsText
   else wsGenericRecsText)

/-- The suggestion-request keyword list of `handle_send_message`. -/
def suggestionKeywords : List (List Char) :=
  [strL "suggestion", strL "suggestions", strL "recommend",
   strL "recommendation", strL "recommendations", strL "what do you have",
   strL "show me products", strL "product catalog", strL "catalog",
   strL "what products", strL "products available", strL "what can you offer",
   strL "suggest me", strL "can suggest"]

/-- The static catalog reply of the `send_message` suggestion branch. -/
def wsSuggestionReply (d : Details) : List Char :=
  strL "Great! Here are some popular products from our catalog:\n\n" ++
  strL "📱 **Technology**: Samsung Galaxy S24 ($799.99), iPhone 15 Pro ($999.99), MacBook Pro M3\n\n" ++
  strL "🏠 **Home & Living**: King Size Wooden Bed, Storage Solutions, Home Decor\n\n" ++
  strQ "👔 **Fashion**: Men~s Slim Fit Jeans, Designer Clothing, Accessories\n\n" ++
  (if truthy d.name then
    strL "Which category interests you most, " ++ pyVal d.name ++ strL "?"
   else strL "Which category interests you most?")

/-- The "safe update" block both handlers run on an agent reply
(`app.py`, the `details = extract_user_details(agent_reply)` blocks): apply
`extract_user_details` to the reply and commit the guarded delta. -/
def applyAgentExtraction (p : List Char × ConvState) : ConvState :=
  if hasAnyDelta (safeUpdateDelta p.2.details (extract_user_details p.1)) = true then
    { p.2 with
      details := update_collected_details p.2.details
        (safeUpdateDelta p.2.details (extract_user_details p.1)) }
  else p.2

/-! ### The `/chat` POST handler (`chat` in `app.py`) -/

/-- The non-confirmation tail of `chat`: user-message extraction first, the
agent path (with the "safe update" from the agent reply) otherwise. -/
def chatFallthrough (st : ConvState) (rows : List CsvRow) (message : List Char) :
    ConvState × List CsvRow × List Char :=
  let ud := extract_user_details_from_user_message st.details message
  if hasAnyDelta ud then
    let d := update_collected_details st.details ud
    let reply := generate_structured_response d message
    let st1 :=
      if are_details_complete d then
        { st with details := d, currentStep := strL "confirmation", pending := true }
      else { st with details := d }
    (st1, rows, reply)
  else
    let p := call_agent_sync st message
    let st2 := applyAgentExtraction p
    if are_details_complete st2.details then
      ({ st2 with currentStep := strL "confirmation", pending := true }, rows,
       format_details_for_confirmation st2.details)
    else (st2, rows, p.1)

/-- The `/chat` POST handler: the `confirm` branch requires
`pending_confirmation` and completeness; everything else falls through to
the extraction path. -/
def chatStep (st : ConvState) (rows : List CsvRow) (message : List Char) :
    ConvState × List CsvRow × List Char :=
  if lowerL (stripL message) == strL "confirm" then
    if st.pending then
      if are_details_complete st.details then
        ({ st with currentStep := strL "confirmed", pending := false },
         clean_incomplete_csv_entries (save_to_csv rows st.details (strL "confirmed")),
         chatConfirmReply st.details)
      else chatFallthrough st rows message
    else chatFallthrough st rows message
  else chatFallthrough st rows message

/-! ### The WebSocket `send_message` handler (`handle_send_message`) -/

/-- `handle_send_message`: the `confirm` branch checks only completeness
(not `pending_confirmation`); otherwise the suggestion branch, then the
extraction/agent path with the "safe update" applied to the reply. -/
def wsStep (st : ConvState) (rows : List CsvRow) (message : List Char) :
    ConvState × List CsvRow × List Char :=
  let ml := lowerL (stripL message)
  if ml == strL "confirm" then
    if are_details_complete st.details then
      ({ st with currentStep := strL "confirmed", pending := false },
       clean_incomplete_csv_entries (save_to_csv rows st.details (strL "confirmed")),
       wsConfirmReply st.details)
    else
      (st, rows, strL "I notice some details are still missing. Let me help you complete your profile first.")
  else if suggestionKeywords.any (fun k => containsSub k ml) then
    (st, rows, wsSuggestionReply st.details)
  else
    let ud := extract_user_details_from_user_message st.details message
    let p :=
      if hasAnyDelta ud then
        let d := update_collected_details st.details ud
        let stA := { st with details := d }
        (generate_structured_response d message,
         if are_details_complete d then { stA with pending := true } else stA)
      else call_agent_sync st message
    (applyAgentExtraction p, rows, p.1)

/-! ## The root agent system (`root_agent_system.py`)

The staged state machine GREETING → NAME → AGE → COUNTRY → INTEREST →
CONFIRMATION → COMPLETE.  The RAG context fields (`last_message`,
`context_summary`) feed only the external retrieval collaborator and are
omitted. -/

inductive RStage
  | greeting
  | nameCollection
  | ageCollection
  | countryCollection
  | interestCollection
  | confirmation
  | complete
deriving DecidableEq, Repr

/-- `LeadInfo` (`state.py`). -/
structure LeadInfo where
  name : Option (List Char) := none
  age : Option (List Char) := none
  country : Option (List Char) := none
  productInterest : Option (List Char) := none
  status : List Char := strL "new"
deriving DecidableEq, Repr

/-- `LeadInfo.is_complete`. -/
def leadInfoComplete (li : LeadInfo) : Bool :=
  truthy li.name && truthy li.age && truthy li.country && truthy li.productInterest

/-- `UserSessionState` (`root_agent_system.py`). -/
structure RSession where
  currentStage : RStage := RStage.greeting
  leadInfo : LeadInfo := {}
  interactionCount : Nat := 0
deriving DecidableEq, Repr

/-- Try `LIT(cls+)` patterns in order, first `re.search` hit wins (the
pattern loops of `extract_info_from_message` and of `graph.py`; `cls` is
`\w` for the name/country patterns and `.` for the interest patterns). -/
def rootFirstPat (cls : Char → Bool) (lits : List (List Char)) (ml : List Char) :
    Option (List Char) :=
  match lits with
  | [] => none
  | l :: rest =>
    match searchPat (mLit l) (mPlus cls) mEps ml with
    | some g => some g
    | none => rootFirstPat cls rest ml

/-- `extract_info_from_message(message, "name")`: intro patterns on the
lower-cased stripped message, then the bare single-token fallback (token
longer than two characters, original case, title-cased). -/
def rootExtractName (message : List Char) : Option (List Char) :=
  let ml := stripL (lowerL message)
  match rootFirstPat isWordC
      [strL "my name is ", strQ "i~m ", strL "i am ", strL "call me ",
       strQ "it~s ", strL "name is "] ml with
  | some g => some (titleL g)
  | none =>
    match splitWs (stripL message) with
    | [w] => if decide (2 < w.length) then some (titleL w) else none
    | _ => none

/-- `extract_info_from_message(message, "age")`: first `\b(\d{1,3})\b` hit,
accepted when `10 <= age <= 120`, returned as `str(age)`. -/
def rootExtractAge (message : List Char) : Option (List Char) :=
  match findNum13 message with
  | some m =>
    let age := digitsToNat m
    if decide (10 ≤ age) && decide (age ≤ 120) then some (natToDigits age)
    else none
  | none => none

/-- `extract_info_from_message(message, "country")`: prepositional patterns,
then the single-token fallback (`message.title()`). -/
def rootExtractCountry (message : List Char) : Option (List Char) :=
  let ml := stripL (lowerL message)
  match rootFirstPat isWordC
      [strL "from ", strL "in ", strL "live in ", strL "country is ",
       strQ "i~m in "] ml with
  | some g => some (titleL g)
  | none =>
    if (splitWs message).length == 1 then some (titleL message) else none

/-- The `.` class of the `(.+)` interest groups. -/
def anyNotNl (c : Char) : Bool := !(c == '\n')

/-- `extract_info_from_message(message, "interest")`: intent patterns, else
the whole stripped message.  `InfoCollectionAgent._extract_info` in
`graph.py` implements the identical logic for the product-interest focus. -/
def rootExtractInterest (message : List Char) : List Char :=
  let ml := stripL (lowerL message)
  match rootFirstPat anyNotNl
      [strL "interested in ", strL "looking for ", strL "want ",
       strL "need ", strL "buying "]
      ml with
  | some g => stripL g
  | none => stripL message

/-- Result of one stage agent's `process`. -/
structure RResult where
  response : List Char
  nextStage : RStage
  leadInfo : LeadInfo
deriving DecidableEq, Repr

/-- `GreetingAgent.process`. -/
def greetingProcess (s : RSession) : RResult :=
  { response :=
      if s.interactionCount == 1 then
        strQ "Hello! Welcome to our sales assistant. I~m here to help you find the perfect products for your needs. To get started, could you please tell me your name?"
      else
        strQ "I~d be happy to help you! Let~s start by getting to know you. What~s your name?"
    nextStage := RStage.nameCollection
    leadInfo := s.leadInfo }

/-- `NameCollectionAgent.process`. -/
def nameCollectionProcess (s : RSession) (msg : List Char) : RResult :=
  let n := rootExtractName msg
  if truthy n then
    { response := strL "Nice to meet you, " ++ pyVal n ++
        strL "! Now, could you please tell me your age?"
      nextStage := RStage.ageCollection
      leadInfo := { s.leadInfo with name := n } }
  else
    { response := strQ "I~d love to know your name so I can personalize our conversation. Could you please tell me what I should call you?"
      nextStage := RStage.nameCollection
      leadInfo := s.leadInfo }

/-- `AgeCollectionAgent.process`. -/
def ageCollectionProcess (s : RSession) (msg : List Char) : RResult :=
  let a := rootExtractAge msg
  if truthy a then
    { response := strL "Thank you! And which country are you from, " ++
        pyVal s.leadInfo.name ++ strL "?"
      nextStage := RStage.countryCollection
      leadInfo := { s.leadInfo with age := a } }
  else
    { response := strL "Could you please tell me your age? This helps me recommend products that are most suitable for you."
      nextStage := RStage.ageCollection
      leadInfo := s.leadInfo }

/-- `CountryCollectionAgent.process`. -/
def countryCollectionProcess (s : RSession) (msg : List Char) : RResult :=
  let c := rootExtractCountry msg
  if truthy c then
    { response := strL "Great! Now, what kind of products are you interested in or looking to purchase?"
      nextStage := RStage.interestCollection
      leadInfo := { s.leadInfo with country := c } }
  else
    { response := strL "Which country are you from? This helps me understand regional preferences and availability."
      nextStage := RStage.countryCollection
      leadInfo := s.leadInfo }

/-- `InterestCollectionAgent.process`. -/
def interestCollectionProcess (s : RSession) (msg : List Char) : RResult :=
  let i := rootExtractInterest msg
  if !i.isEmpty then
    let li := { s.leadInfo with productInterest := some i }
    { response := strL "Perfect! Let me summarize your information:\n\n" ++
        strL "Name: " ++ pyVal li.name ++ strL "\n" ++
        strL "Age: " ++ pyVal li.age ++ strL "\n" ++
        strL "Country: " ++ pyVal li.country ++ strL "\n" ++
        strL "Product Interest: " ++ pyVal li.productInterest ++ strL "\n\n" ++
        strQ "Is this information correct? Please type ~confirm~ if everything looks good, or let me know what needs to be corrected."
      nextStage := RStage.confirmation
      leadInfo := li }
  else
    { response := strL "What type of products are you interested in purchasing? For example: laptops, smartphones, headphones, etc."
      nextStage := RStage.interestCollection
      leadInfo := s.leadInfo }

/-- The affirmative token list of `ConfirmationAgent.process` in
`root_agent_system.py`. -/
def rootAffirmatives : List (List Char) :=
  [strL "confirm", strL "yes", strL "correct", strL "right", strL "ok",
   strL "y", strL "confirmed"]

/-- `ConfirmationAgent.process` (`root_agent_system.py`). -/
def confirmationProcess (s : RSession) (msg : List Char) : RResult :=
  if rootAffirmatives.contains (stripL (lowerL msg)) then
    { response := strL "Excellent! Thank you for confirming your information, " ++
        pyVal s.leadInfo.name ++
        strQ ". I~ll now prepare some personalized product recommendations for you based on your interests."
      nextStage := RStage.complete
      leadInfo := { s.leadInfo with status := strL "confirmed" } }
  else
    { response := strQ "No problem! What would you like to correct? Please tell me the updated information and I~ll make the necessary changes."
      nextStage := RStage.confirmation
      leadInfo := s.leadInfo }

/-- Stage dispatch of `RootControlAgent.respond`; the `stage_agents`
dictionary has no COMPLETE entry, so the dispatcher falls back to the
greeting agent there (after resetting the stage, which the result's
`next_stage` overwrites anyway). -/
def rootProcessAt (stage : RStage) (s : RSession) (msg : List Char) : RResult :=
  match stage with
  | RStage.greeting => greetingProcess s
  | RStage.nameCollection => nameCollectionProcess s msg
  | RStage.ageCollection => ageCollectionProcess s msg
  | RStage.countryCollection => countryCollectionProcess s msg
  | RStage.interestCollection => interestCollectionProcess s msg
  | RStage.confirmation => confirmationProcess s msg
  | RStage.complete => greetingProcess s

/-- `RootControlAgent.respond`, the state-transition part: bump the
interaction count, run the stage agent, commit its next stage and lead
info. -/
def rootStep (s : RSession) (msg : List Char) : RSession :=
  let s1 := { s with interactionCount := s.interactionCount + 1 }
  let r := rootProcessAt s1.currentStage s1 msg
  { s1 with currentStage := r.nextStage, leadInfo := r.leadInfo }

/-- The root agent's reply text for one message. -/
def rootReply (s : RSession) (msg : List Char) : List Char :=
  (rootProcessAt s.currentStage ({ s with interactionCount := s.interactionCount + 1 }) msg).response

/-- Sessions reachable from a fresh `UserSessionState` by processing
messages. -/
inductive RootReachable : RSession → Prop
  | init : RootReachable {}
  | step (s : RSession) (msg : List Char) :
      RootReachable s → RootReachable (rootStep s msg)

/-! ## The LangGraph layer (`graph.py`): extractors and confirmation test -/

/-- `GreetingAgent._extract_name` (`graph.py`): intro patterns and the
anchored `^(\w+)$` fallback, no validation. -/
def graphExtractName (text : List Char) : Option (List Char) :=
  let ml := stripL (lowerL text)
  match rootFirstPat isWordC
      [strL "my name is ", strQ "i~m ", strL "i am ", strL "call me ",
       strQ "it~s "] ml with
  | some g => some (titleL g)
  | none =>
    match matchHere mEps (mPlus isWordC) mEnd ml with
    | some g => some (titleL g)
    | none => none

/-- `InfoCollectionAgent._extract_info` with focus `age` (`graph.py`):
first `\b(\d{1,3})\b` hit, accepted unchanged when in `[10, 120]`. -/
def graphExtractAge (text : List Char) : Option (List Char) :=
  match findNum13 text with
  | some m =>
    if decide (10 ≤ digitsToNat m) && decide (digitsToNat m ≤ 120) then some m
    else none
  | none => none

/-- `InfoCollectionAgent._extract_info` with focus `country` (`graph.py`). -/
def graphExtractCountry (text : List Char) : Option (List Char) :=
  let ml := stripL (lowerL text)
  match rootFirstPat isWordC
      [strL "from ", strL "in ", strL "live in ", strL "country is ",
       strQ "i~m in "] ml with
  | some g => some (titleL g)
  | none =>
    if (splitWs text).length == 1 then some (titleL text) else none

/-- The affirmative token list of `ConfirmationAgent.process` in `graph.py`
(`['confirm', 'yes', 'correct', 'right', 'ok']`, no `y`). -/
def graphAffirmatives : List (List Char) :=
  [strL "confirm", strL "yes", strL "correct", strL "right", strL "ok"]

/-- The advance test of `graph.py`'s `ConfirmationAgent.process`: the last
human message, lower-cased and stripped, is one of the five tokens. -/
def graphConfirmAdvances (lastMsg : List Char) : Bool :=
  graphAffirmatives.contains (stripL (lowerL lastMsg))

/-! ## The follow-up scheduler (`follow_up_checker` in `app.py` and the
activity tracker of `StateManager`)

Time is modelled in seconds as a natural number.  `trackerTime` is the
lead's `_activity_tracker` entry; `lastActivity` is
`ConversationState.last_activity`.  The inactivity test
`last_activity < utcnow - threshold` is rendered as
`t + threshold < now`. -/

structure LeadSys where
  trackerTime : Option Nat := none
  state : ConvState := {}
  lastActivity : Nat := 0
deriving DecidableEq, Repr

/-- `StateManager.record_user_activity` (the per-message inbound write):
sets the tracker entry and, through `update_conversation_state`, the
session's `last_activity`. -/
def record_user_activity (now : Nat) (l : LeadSys) : LeadSys :=
  { l with trackerTime := some now, lastActivity := now }

/-- `StateManager.get_inactive_users` restricted to one lead: the lead is
listed only when it has a tracker entry older than the threshold and its
state is active. -/
def inactiveEligible (threshold now : Nat) (l : LeadSys) : Bool :=
  match l.trackerTime with
  | some t => decide (t + threshold < now) && l.state.isActive
  | none => false

/-- The escalating follow-up template of `follow_up_checker`, keyed by
`follow_up_count`; the name defaults through
`details.get('name', 'there')`, which returns the stored value (possibly
`None`) since the key is always present. -/
def followUpText (d : Details) (count : Nat) : List Char :=
  let name := pyVal d.name
  if count == 0 then
    strQ "Hi " ++ name ++ strQ "! I noticed you might have stepped away. I~m still here to help you find the perfect products. What would you like to explore?"
  else if count == 1 then
    strL "Just checking in, " ++ name ++ strL ". I have some great product recommendations based on our conversation. Would you like to see them?"
  else
    strQ "Hi " ++ name ++ strQ ", I~ll be here whenever you~re ready to continue our conversation. Feel free to message me anytime!"

/-- One sweep of `follow_up_checker` for the lead: skip unless inactive and
eligible; skip at `follow_up_count >= 3`; otherwise emit the template,
increment the count and (through `update_conversation_state`) refresh
`last_activity` — the `_activity_tracker` entry is NOT touched. -/
def followUpSweep (threshold now : Nat) (l : LeadSys) : LeadSys × Option (List Char) :=
  if inactiveEligible threshold now l then
    if decide (3 ≤ l.state.followUpCount) then (l, none)
    else
      ({ l with
          state := { l.state with followUpCount := l.state.followUpCount + 1 },
          lastActivity := now },
       some (followUpText l.state.details l.state.followUpCount))
  else (l, none)

/-- Interleaved events seen by the shared state: an inbound user message
(at some time) or one scheduler sweep (at some time). -/
inductive LeadOp
  | userMsg (now : Nat)
  | sweep (now : Nat)

/-- Apply one event; the second component is the emitted follow-up, if any. -/
def applyOp (threshold : Nat) (l : LeadSys) : LeadOp → LeadSys × Option (List Char)
  | LeadOp.userMsg now => (record_user_activity now l, none)
  | LeadOp.sweep now => followUpSweep threshold now l

/-- Run a sequence of events, counting emitted follow-up messages. -/
def runOps (threshold : Nat) : LeadSys → List LeadOp → LeadSys × Nat
  | l, [] => (l, 0)
  | l, op :: rest =>
    let p := applyOp threshold l op
    let q := runOps threshold p.1 rest
    (q.1, (if p.2.isSome then 1 else 0) + q.2)

/-! ## Generic lemmas: string helpers, the matcher engine, the loops -/

theorem titleGo_length : ∀ (b : Bool) (s : List Char), (titleGo b s).length = s.length
  | _, [] => rfl
  | b, c :: rest => by simp [titleGo, titleGo_length (isAlphaC c) rest]

theorem titleL_length (s : List Char) : (titleL s).length = s.length :=
  titleGo_length false s

theorem mem_of_head?_eq_some {α : Type} {l : List α} {a : α} (h : l.head? = some a) :
    a ∈ l := by
  cases l with
  | nil => simp at h
  | cons b t => simp at h; simp [h]

theorem take_takeWhile_eq {cls : Char → Bool} :
    ∀ (s : List Char) (k : Nat), k ≤ (s.takeWhile cls).length →
      s.take k = (s.takeWhile cls).take k
  | [], _, _ => by simp
  | _ :: _, 0, _ => by simp
  | c :: rest, k + 1, h => by
    by_cases hc : cls c
    · simp only [List.takeWhile_cons, hc, if_true, List.length_cons,
        Nat.add_le_add_iff_right] at h
      simp only [List.take_succ_cons, List.takeWhile_cons, hc, if_true]
      rw [take_takeWhile_eq rest k h]
    · simp [List.takeWhile_cons, hc] at h

/-- Every split produced by a greedy `cls+` component captures a non-empty
all-`cls` text. -/
theorem mPlus_mem {cls : Char → Bool} {s : List Char} {q : List Char × List Char}
    (h : q ∈ mPlus cls s) : q.1 ≠ [] ∧ q.1.all cls = true := by
  unfold mPlus at h
  rcases List.mem_map.mp h with ⟨i, hi, rfl⟩
  rw [List.mem_range] at hi
  have hk1 : 1 ≤ (s.takeWhile cls).length - i := by omega
  have hkle : (s.takeWhile cls).length - i ≤ (s.takeWhile cls).length := by omega
  refine ⟨?_, ?_⟩
  · show List.take ((s.takeWhile cls).length - i) s ≠ []
    have hlen : (s.take ((s.takeWhile cls).length - i)).length =
        (s.takeWhile cls).length - i := by
      rw [List.length_take]
      have := (List.takeWhile_prefix (l := s) cls).length_le
      omega
    intro hnil
    rw [hnil] at hlen
    simp at hlen
    omega
  · show (List.take ((s.takeWhile cls).length - i) s).all cls = true
    rw [take_takeWhile_eq s _ hkle]
    rw [List.all_eq_true]
    intro x hx
    exact List.mem_takeWhile_imp (List.take_subset _ _ hx)

/-- A capture returned by `matchHere` is one of the group component's
captures. -/
theorem matchHere_capture {pre grp suf : Matcher} {s g : List Char}
    (h : matchHere pre grp suf s = some g) :
    ∃ s2 q, q ∈ grp s2 ∧ g = q.1 := by
  unfold matchHere at h
  have hg := mem_of_head?_eq_some h
  rcases List.mem_flatMap.mp hg with ⟨p, _, hp2⟩
  rcases List.mem_flatMap.mp hp2 with ⟨q, hq, hq2⟩
  rcases List.mem_map.mp hq2 with ⟨_, _, rfl⟩
  exact ⟨p.2, q, hq, rfl⟩

/-- A capture returned by `searchPat` is one of the group component's
captures. -/
theorem searchPat_capture {pre grp suf : Matcher} :
    ∀ {s g : List Char}, searchPat pre grp suf s = some g →
      ∃ s2 q, q ∈ grp s2 ∧ g = q.1 := by
  intro s
  induction s with
  | nil => intro g h; exact matchHere_capture (by simpa [searchPat] using h)
  | cons c rest ih =>
    intro g h
    rw [searchPat] at h
    rcases hm : matchHere pre grp suf (c :: rest) with _ | g2
    · rw [hm] at h; exact ih h
    · rw [hm] at h; cases h; exact matchHere_capture hm

theorem searchPat_cls {pre suf : Matcher} {cls : Char → Bool} {s g : List Char}
    (h : searchPat pre (mPlus cls) suf s = some g) :
    g ≠ [] ∧ g.all cls = true := by
  obtain ⟨s2, q, hq, rfl⟩ := searchPat_capture h
  exact mPlus_mem hq

theorem matchHere_cls {pre suf : Matcher} {cls : Char → Bool} {s g : List Char}
    (h : matchHere pre (mPlus cls) suf s = some g) :
    g ≠ [] ∧ g.all cls = true := by
  obtain ⟨s2, q, hq, rfl⟩ := matchHere_capture h
  exact mPlus_mem hq

/-- Soundness of the age pattern loop: an accepted value is in range and is
one of the pattern results. -/
theorem appAgeLoop_sound :
    ∀ (l : List (Option (List Char))) (s : List Char), appAgeLoop l = some s →
      (13 ≤ digitsToNat s ∧ digitsToNat s ≤ 120) ∧ some s ∈ l
  | [], s, h => by simp [appAgeLoop] at h
  | none :: rest, s, h => by
    rcases appAgeLoop_sound rest s (by simpa [appAgeLoop] using h) with ⟨hb, hm⟩
    exact ⟨hb, List.mem_cons_of_mem _ hm⟩
  | some g :: rest, s, h => by
    rw [appAgeLoop] at h
    split at h
    next hg =>
      cases h
      simp at hg
      exact ⟨hg, by simp⟩
    next hng =>
      rcases appAgeLoop_sound rest s h with ⟨hb, hm⟩
      exact ⟨hb, List.mem_cons_of_mem _ hm⟩

/-- Soundness of the name pattern loop: an accepted value passes
`validNameApp` and comes from one of the pattern results. -/
theorem appNameLoop_sound :
    ∀ (l : List (Option (List Char))) (n : List Char), appNameLoop l = some n →
      validNameApp n = true ∧ ∃ g, some g ∈ l ∧ n = titleL (stripL g)
  | [], n, h => by simp [appNameLoop] at h
  | none :: rest, n, h => by
    rcases appNameLoop_sound rest n (by simpa [appNameLoop] using h) with ⟨hv, g, hm, he⟩
    exact ⟨hv, g, List.mem_cons_of_mem _ hm, he⟩
  | some g :: rest, n, h => by
    rw [appNameLoop] at h
    split at h
    next hg =>
      cases h
      exact ⟨hg, g, by simp, rfl⟩
    next hng =>
      rcases appNameLoop_sound rest n h with ⟨hv, g2, hm, he⟩
      exact ⟨hv, g2, List.mem_cons_of_mem _ hm, he⟩

/-- Soundness of the country pattern loop. -/
theorem appCountryLoop_sound :
    ∀ (l : List (Option (List Char))) (c : List Char), appCountryLoop l = some c →
      2 < c.length ∧ ∃ g, some g ∈ l ∧ c = titleL (stripL g)
  | [], c, h => by simp [appCountryLoop] at h
  | none :: rest, c, h => by
    rcases appCountryLoop_sound rest c (by simpa [appCountryLoop] using h) with ⟨hv, g, hm, he⟩
    exact ⟨hv, g, List.mem_cons_of_mem _ hm, he⟩
  | some g :: rest, c, h => by
    rw [appCountryLoop] at h
    split at h
    next hg =>
      cases h
      simp at hg
      exact ⟨hg, g, by simp, rfl⟩
    next hng =>
      rcases appCountryLoop_sound rest c h with ⟨hv, g2, hm, he⟩
      exact ⟨hv, g2, List.mem_cons_of_mem _ hm, he⟩

/-- Soundness of the interest pattern loop of the user-message extractor. -/
theorem appInterestLoop_sound :
    ∀ (l : List (Option (List Char))) (v : List Char), appInterestLoop l = some v →
      ∃ g, some g ∈ l ∧ v = titleL (stripL g) ∧ 2 < (stripL g).length ∧
        interestSmallBlock.contains (stripL g) = false
  | [], v, h => by simp [appInterestLoop] at h
  | none :: rest, v, h => by
    rcases appInterestLoop_sound rest v (by simpa [appInterestLoop] using h) with
      ⟨g, hm, he, hl, hb⟩
    exact ⟨g, List.mem_cons_of_mem _ hm, he, hl, hb⟩
  | some g :: rest, v, h => by
    rw [appInterestLoop] at h
    split at h
    next hg =>
      cases h
      rw [Bool.and_eq_true] at hg
      refine ⟨g, by simp, rfl, by simpa using hg.1, by simpa using hg.2⟩
    next hng =>
      rcases appInterestLoop_sound rest v h with ⟨g2, hm, he, hl, hb⟩
      exact ⟨g2, List.mem_cons_of_mem _ hm, he, hl, hb⟩

/-- Soundness of the agent-reply interest loop: accepted values pass the
full `is_valid_interest` check. -/
theorem agentInterestLoop_sound :
    ∀ (l : List (Option (List Char))) (v : List Char), agentInterestLoop l = some v →
      validAgentInterest v = true
  | [], v, h => by simp [agentInterestLoop] at h
  | none :: rest, v, h =>
    agentInterestLoop_sound rest v (by simpa [agentInterestLoop] using h)
  | some g :: rest, v, h => by
    rw [agentInterestLoop] at h
    split at h
    next hg =>
      cases h
      exact hg
    next hng =>
      exact agentInterestLoop_sound rest v h

/-! ## Lemmas about the state-manager update paths -/

/-- `update_collected_details` never unsets a truthy slot. -/
theorem update_keeps_truthy {cur upd : Details} :
    (truthy cur.name = true → truthy (update_collected_details cur upd).name = true) ∧
    (truthy cur.age = true → truthy (update_collected_details cur upd).age = true) ∧
    (truthy cur.country = true → truthy (update_collected_details cur upd).country = true) ∧
    (truthy cur.interest = true → truthy (update_collected_details cur upd).interest = true) := by
  unfold update_collected_details
  refine ⟨?_, ?_, ?_, ?_⟩ <;> intro h <;> dsimp only
  · by_cases hu : truthy upd.name = true <;> simp [hu, h]
  · by_cases hu : truthy upd.age = true <;> simp [hu, h]
  · by_cases hu : truthy upd.country = true <;> simp [hu, h]
  · by_cases hu : truthy upd.interest = true <;> simp [hu, h]

/-- Completeness is preserved by any `update_collected_details`. -/
theorem update_keeps_complete {cur upd : Details}
    (h : are_details_complete cur = true) :
    are_details_complete (update_collected_details cur upd) = true := by
  rw [are_details_complete, Bool.and_eq_true, Bool.and_eq_true, Bool.and_eq_true] at h ⊢
  exact ⟨⟨⟨update_keeps_truthy.1 h.1.1.1, update_keeps_truthy.2.1 h.1.1.2⟩,
    update_keeps_truthy.2.2.1 h.1.2⟩, update_keeps_truthy.2.2.2 h.2⟩

/-- The "safe update" guard refuses to overwrite a value of length ≥ 2. -/
theorem okToOverwrite_false {v : List Char} (hv : 2 ≤ v.length) :
    okToOverwrite (some v) = false := by
  have hne : v ≠ [] := by intro hnil; rw [hnil] at hv; simp at hv
  unfold okToOverwrite
  simp [List.isEmpty_iff, hne]
  omega

/-- A slot holding a value of length ≥ 2 survives the agent-reply safe
update, whatever the agent extraction produced. -/
theorem safe_update_preserves (cur ad : Details) :
    (∀ v, cur.name = some v → 2 ≤ v.length →
      (update_collected_details cur (safeUpdateDelta cur ad)).name = some v) ∧
    (∀ v, cur.age = some v → 2 ≤ v.length →
      (update_collected_details cur (safeUpdateDelta cur ad)).age = some v) ∧
    (∀ v, cur.country = some v → 2 ≤ v.length →
      (update_collected_details cur (safeUpdateDelta cur ad)).country = some v) ∧
    (∀ v, cur.interest = some v → 2 ≤ v.length →
      (update_collected_details cur (safeUpdateDelta cur ad)).interest = some v) := by
  unfold update_collected_details safeUpdateDelta
  refine ⟨?_, ?_, ?_, ?_⟩ <;> intro v hc hv <;> dsimp only <;>
    rw [hc, okToOverwrite_false hv] <;> simp [truthy]

/-- The complete-details case of the user-message extractor: nothing is
attempted, the delta is empty. -/
theorem extract_empty_of_complete {d : Details}
    (h : are_details_complete d = true) (m : List Char) :
    extract_user_details_from_user_message d m = {} := by
  rw [are_details_complete, Bool.and_eq_true, Bool.and_eq_true, Bool.and_eq_true] at h
  unfold extract_user_details_from_user_message
  rw [h.1.1.1, h.1.1.2, h.1.2, h.2]
  rfl

/-- The user-message extractor never targets an already-truthy slot: the
delta leaves every set field `none`. -/
theorem extract_user_details_single_focus (cur : Details) (m : List Char) :
    (truthy cur.name = true → (extract_user_details_from_user_message cur m).name = none) ∧
    (truthy cur.age = true → (extract_user_details_from_user_message cur m).age = none) ∧
    (truthy cur.country = true → (extract_user_details_from_user_message cur m).country = none) ∧
    (truthy cur.interest = true → (extract_user_details_from_user_message cur m).interest = none) := by
  unfold extract_user_details_from_user_message
  by_cases h1 : truthy cur.name = true <;>
    by_cases h2 : truthy cur.age = true <;>
      by_cases h3 : truthy cur.country = true <;>
        by_cases h4 : truthy cur.interest = true <;>
          simp [h1, h2, h3, h4]

/-- A digit string with value at least 13 has at least two characters. -/
theorem length_two_of_ge13 {s : List Char} (hall : s.all isDigitC = true)
    (h13 : 13 ≤ digitsToNat s) : 2 ≤ s.length := by
  match s with
  | [] => simp [digitsToNat] at h13
  | [c] =>
    rw [List.all_eq_true] at hall
    have hc : isDigitC c = true := hall c (by simp)
    rw [isDigitC, Bool.and_eq_true, decide_eq_true_iff, decide_eq_true_iff] at hc
    have : digitsToNat [c] = c.toNat - 48 := by simp [digitsToNat]
    omega
  | _ :: _ :: _ => simp

/-! ## Concrete instances used by the claim-level theorems -/

/-- A fully collected lead. -/
def aliceDetails : Details :=
  { name := some (strL "Alice"), age := some (strL "25"),
    country := some (strL "France"), interest := some (strL "Technology") }

/-- The session just after the confirmation summary was issued. -/
def alicePending : ConvState :=
  { currentStep := strL "confirmation", details := aliceDetails, pending := true }

/-- The same session with `pending_confirmation` already cleared (as after a
first successful finalize). -/
def aliceNotPending : ConvState :=
  { currentStep := strL "confirmed", details := aliceDetails, pending := false }

/-- The CSV row written by finalizing that lead. -/
def aliceRow : CsvRow :=
  { name := strL "Alice", age := strL "25", country := strL "France",
    interest := strL "Technology", status := strL "confirmed" }

/-- Run the root agent system over a message sequence from a fresh session. -/
def rootRun (msgs : List (List Char)) : RSession := msgs.foldl rootStep {}

/-! ## Supporting lemmas for the finalization paths -/

/-- On a session whose details are complete, `call_agent_sync` leaves the
state untouched (its extraction attempt is empty). -/
theorem call_agent_sync_state_of_complete {st : ConvState}
    (hc : are_details_complete st.details = true) (m : List Char) :
    (call_agent_sync st m).2 = st := by
  unfold call_agent_sync
  dsimp only
  rw [extract_empty_of_complete hc]
  rfl

/-- The safe-update block never changes `pending_confirmation`. -/
theorem applyAgentExtraction_pending (p : List Char × ConvState) :
    (applyAgentExtraction p).pending = p.2.pending := by
  unfold applyAgentExtraction
  split <;> rfl

/-- The reply generator never changes `pending_confirmation`. -/
theorem call_agent_sync_pending (st : ConvState) (m : List Char) :
    (call_agent_sync st m).2.pending = st.pending := by
  unfold call_agent_sync
  dsimp only
  split <;> rfl

/-- The safe-update block preserves completeness of the details. -/
theorem applyAgentExtraction_complete (p : List Char × ConvState)
    (hc : are_details_complete p.2.details = true) :
    are_details_complete (applyAgentExtraction p).details = true := by
  unfold applyAgentExtraction
  split
  · exact update_keeps_complete hc
  · exact hc

/-- The `/chat` fallthrough path never writes the CSV. -/
theorem chatFallthrough_rows (st : ConvState) (rows : List CsvRow) (m : List Char) :
    (chatFallthrough st rows m).2.1 = rows := by
  unfold chatFallthrough
  dsimp only
  split
  · rfl
  · split <;> rfl

/-- On a complete session whose extraction attempt is empty, the `/chat`
fallthrough path re-issues the summary state: it sets
`pending_confirmation` and does not touch the CSV. -/
theorem chatFallthrough_pending_of_complete (st : ConvState) (rows : List CsvRow)
    (m : List Char)
    (hud : extract_user_details_from_user_message st.details m = {})
    (hc : are_details_complete st.details = true) :
    (chatFallthrough st rows m).1.pending = true := by
  unfold chatFallthrough
  dsimp only
  rw [hud]
  rw [show hasAnyDelta {} = false from rfl]
  simp only [Bool.false_eq_true, if_false]
  split
  · rfl
  next hno =>
    refine absurd (applyAgentExtraction_complete _ ?_) hno
    rw [call_agent_sync_state_of_complete hc m]
    exact hc

/-- C1, amended.  Finalization behaviour of the two confirmation paths on a
complete lead: (i) the WebSocket path finalizes and appends a confirmed CSV
row on EVERY `confirm`, with no `pending_confirmation` guard, so a repeated
`confirm` duplicates the row; (ii) the HTTP `/chat` path writes nothing when
`pending_confirmation` is false, but (iii) it then re-issues the summary and
re-arms `pending_confirmation`, so (iv) with `pending_confirmation` set a
`confirm` always appends a row and clears the flag — finalization is
idempotent only for the immediately repeated HTTP `confirm`, not for the
WebSocket path nor for an HTTP `confirm` repeated twice more. -/
theorem C1_finalize_amended (st : ConvState) (rows : List CsvRow) :
    (are_details_complete st.details = true →
      (wsStep st rows (strL "confirm")).2.1 =
        clean_incomplete_csv_entries (save_to_csv rows st.details (strL "confirmed")) ∧
      (wsStep st rows (strL "confirm")).1.pending = false) ∧
    (st.pending = false →
      (chatStep st rows (strL "confirm")).2.1 = rows) ∧
    (st.pending = false → are_details_complete st.details = true →
      (chatStep st rows (strL "confirm")).1.pending = true) ∧
    (st.pending = true → are_details_complete st.details = true →
      (chatStep st rows (strL "confirm")).2.1 =
        clean_incomplete_csv_entries (save_to_csv rows st.details (strL "confirmed")) ∧
      (chatStep st rows (strL "confirm")).1.pending = false) := by
  have hml : (lowerL (stripL (strL "confirm")) == strL "confirm") = true := rfl
  refine ⟨?_, ?_, ?_, ?_⟩
  · intro hc
    unfold wsStep
    dsimp only
    rw [hml]
    simp only [if_true, if_pos hc]
    refine ⟨?_, ?_⟩ <;> first | rfl | trivial
  · intro hp
    unfold chatStep
    rw [hml]
    simp only [if_true, hp, Bool.false_eq_true, if_false]
    exact chatFallthrough_rows st rows _
  · intro hp hc
    unfold chatStep
    rw [hml]
    simp only [if_true, hp, Bool.false_eq_true, if_false]
    exact chatFallthrough_pending_of_complete st rows _
      (extract_empty_of_complete hc _) hc
  · intro hp hc
    unfold chatStep
    rw [hml]
    simp only [if_true, hp, if_pos hc]
    refine ⟨?_, ?_⟩ <;> first | rfl | trivial

/-- C1, witness: the amended theorem applied to the concrete finished lead. -/
theorem C1_witness :
    are_details_complete alicePending.details = true ∧
    (wsStep alicePending [] (strL "confirm")).2.1 =
      clean_incomplete_csv_entries (save_to_csv [] alicePending.details (strL "confirmed")) ∧
    (chatStep aliceNotPending [] (strL "confirm")).2.1 = [] ∧
    (chatStep aliceNotPending [] (strL "confirm")).1.pending = true ∧
    (chatStep alicePending [] (strL "confirm")).1.pending = false := by
  refine ⟨by decide, ?_, ?_, ?_, ?_⟩
  · exact ((C1_finalize_amended alicePending []).1 (by decide)).1
  · exact (C1_finalize_amended aliceNotPending []).2.1 (by decide)
  · exact (C1_finalize_amended aliceNotPending []).2.2.1 (by decide) (by decide)
  · exact ((C1_finalize_amended alicePending []).2.2.2 (by decide) (by decide)).2

/-- C1, counterexample: on the WebSocket path a second `confirm` for the
already-confirmed lead appends a second identical confirmed row (and on the
HTTP path, `confirm` sent twice more after finalization does the same),
contradicting "the confirmed-status write is not duplicated". -/
theorem C1_counterexample :
    (wsStep alicePending [] (strL "confirm")).2.1 = [aliceRow] ∧
    (wsStep alicePending [] (strL "confirm")).1.pending = false ∧
    (wsStep (wsStep alicePending [] (strL "confirm")).1
        (wsStep alicePending [] (strL "confirm")).2.1 (strL "confirm")).2.1
      = [aliceRow, aliceRow] := by
  refine ⟨by decide, by decide, by decide⟩

/-- A session sitting in the CONFIRMATION stage. -/
def confirmationSession (li : LeadInfo) (n : Nat) : RSession :=
  { currentStage := RStage.confirmation, leadInfo := li, interactionCount := n }

/-- C2, amended.  In the CONFIRMATION stage the root agent system advances
to COMPLETE exactly for the seven tokens `{confirm, yes, correct, right,
ok, y, confirmed}` (lower-cased, stripped) and stays in CONFIRMATION for
every other input; the LangGraph confirmation agent advances exactly for
the five tokens `{confirm, yes, correct, right, ok}` (without `y`). -/
theorem C2_confirmation_tokens_amended (li : LeadInfo) (n : Nat) (msg : List Char) :
    ((rootStep (confirmationSession li n) msg).currentStage = RStage.complete ↔
      stripL (lowerL msg) ∈ rootAffirmatives) ∧
    ((rootStep (confirmationSession li n) msg).currentStage = RStage.confirmation ↔
      stripL (lowerL msg) ∉ rootAffirmatives) ∧
    (graphConfirmAdvances msg = true ↔ stripL (lowerL msg) ∈ graphAffirmatives) := by
  refine ⟨?_, ?_, ?_⟩
  · by_cases hmem : stripL (lowerL msg) ∈ rootAffirmatives
    · have hb : rootAffirmatives.contains (stripL (lowerL msg)) = true := by simpa using hmem
      simp [confirmationSession, rootStep, rootProcessAt, confirmationProcess, hb, hmem]
    · have hb : rootAffirmatives.contains (stripL (lowerL msg)) = false := by simpa using hmem
      simp [confirmationSession, rootStep, rootProcessAt, confirmationProcess, hb, hmem]
  · by_cases hmem : stripL (lowerL msg) ∈ rootAffirmatives
    · have hb : rootAffirmatives.contains (stripL (lowerL msg)) = true := by simpa using hmem
      simp [confirmationSession, rootStep, rootProcessAt, confirmationProcess, hb, hmem]
    · have hb : rootAffirmatives.contains (stripL (lowerL msg)) = false := by simpa using hmem
      simp [confirmationSession, rootStep, rootProcessAt, confirmationProcess, hb, hmem]
  · by_cases hmem : stripL (lowerL msg) ∈ graphAffirmatives
    · have hb : graphAffirmatives.contains (stripL (lowerL msg)) = true := by simpa using hmem
      simp [graphConfirmAdvances, hb, hmem]
    · have hb : graphAffirmatives.contains (stripL (lowerL msg)) = false := by simpa using hmem
      simp [graphConfirmAdvances, hb, hmem]

/-- C2, counterexample: `confirmed` is not one of the six claimed tokens yet
advances the root agent system to COMPLETE; conversely `y` is claimed
affirmative but does not advance the LangGraph confirmation agent. -/
theorem C2_counterexample :
    (rootStep { currentStage := RStage.confirmation } (strL "confirmed")).currentStage
      = RStage.complete ∧
    stripL (lowerL (strL "confirmed")) ≠ strL "confirm" ∧
    stripL (lowerL (strL "confirmed")) ≠ strL "yes" ∧
    stripL (lowerL (strL "confirmed")) ≠ strL "correct" ∧
    stripL (lowerL (strL "confirmed")) ≠ strL "right" ∧
    stripL (lowerL (strL "confirmed")) ≠ strL "ok" ∧
    stripL (lowerL (strL "confirmed")) ≠ strL "y" ∧
    graphConfirmAdvances (strL "y") = false := by decide

/-- C3, amended.  Age extraction: the `graph.py` extractor takes the first
boundary-delimited 1–3 digit number, accepts it exactly when its value is
in `[10, 120]` and stores the matched substring unchanged; out-of-range
numbers leave the slot unset (never clamped) in both the graph and root
extractors; the root extractor accepts the same `[10, 120]` range but
stores `str(int(…))`, the canonical decimal form of the parsed value; the
`app.py` user-message extractor accepts, through its own anchored patterns,
only digit runs whose value is in `[13, 120]`, stored verbatim. -/
theorem C3_age_extraction_amended :
    (∀ msg s : List Char, graphExtractAge msg = some s →
      findNum13 msg = some s ∧ 10 ≤ digitsToNat s ∧ digitsToNat s ≤ 120) ∧
    (∀ msg t : List Char, findNum13 msg = some t →
      ¬(10 ≤ digitsToNat t ∧ digitsToNat t ≤ 120) →
      graphExtractAge msg = none ∧ rootExtractAge msg = none) ∧
    (∀ msg s : List Char, rootExtractAge msg = some s →
      ∃ t, findNum13 msg = some t ∧ 10 ≤ digitsToNat t ∧ digitsToNat t ≤ 120 ∧
        s = natToDigits (digitsToNat t)) ∧
    (∀ (cur : Details) (m s : List Char), truthy cur.name = true →
      truthy cur.age = false →
      (extract_user_details_from_user_message cur m).age = some s →
      s ≠ [] ∧ s.all isDigitC = true ∧ 13 ≤ digitsToNat s ∧
        digitsToNat s ≤ 120 ∧ 2 ≤ s.length) := by
  refine ⟨?_, ?_, ?_, ?_⟩
  · intro msg s h
    unfold graphExtractAge at h
    rcases hf : findNum13 msg with _ | m
    · rw [hf] at h; cases h
    · rw [hf] at h
      dsimp only at h
      split at h
      next hcond =>
        cases h
        simp at hcond
        exact ⟨rfl, hcond.1, hcond.2⟩
      next hcond => cases h
  · intro msg t hf hno
    have hcond : (decide (10 ≤ digitsToNat t) && decide (digitsToNat t ≤ 120)) = false := by
      by_cases h1 : 10 ≤ digitsToNat t
      · by_cases h2 : digitsToNat t ≤ 120
        · exact absurd ⟨h1, h2⟩ hno
        · simp [h1, h2]
      · simp [h1]
    constructor
    · unfold graphExtractAge
      rw [hf]
      dsimp only
      rw [hcond]
      rfl
    · unfold rootExtractAge
      rw [hf]
      dsimp only
      rw [hcond]
      rfl
  · intro msg s h
    unfold rootExtractAge at h
    rcases hf : findNum13 msg with _ | m
    · rw [hf] at h; cases h
    · rw [hf] at h
      dsimp only at h
      split at h
      next hcond =>
        cases h
        simp at hcond
        exact ⟨m, rfl, hcond.1, hcond.2, rfl⟩
      next hcond => cases h
  · intro cur m s h1 h2 h
    have hd : extract_user_details_from_user_message cur m =
        { age := appExtractAge (stripL (lowerL m)) } := by
      unfold extract_user_details_from_user_message
      simp [h1, h2]
    rw [hd] at h
    have h3 : appExtractAge (stripL (lowerL m)) = some s := h
    unfold appExtractAge at h3
    rcases appAgeLoop_sound _ _ h3 with ⟨⟨h13, h120⟩, hmem⟩
    have hdig : s ≠ [] ∧ s.all isDigitC = true := by
      simp only [List.mem_cons, List.mem_singleton] at hmem
      rcases hmem with hp | hp | hp | hp
      · exact searchPat_cls hp.symm
      · exact searchPat_cls hp.symm
      · exact matchHere_cls hp.symm
      · simp at hp
    exact ⟨hdig.1, hdig.2, h13, h120, length_two_of_ge13 hdig.2 h13⟩

/-- C3, witness: the amended theorem applied at concrete messages. -/
theorem C3_witness :
    (findNum13 (strL "i am 25") = some (strL "25") ∧
      10 ≤ digitsToNat (strL "25") ∧ digitsToNat (strL "25") ≤ 120) ∧
    (graphExtractAge (strL "i am 150") = none ∧
      rootExtractAge (strL "i am 150") = none) ∧
    ((strL "13" : List Char) ≠ [] ∧ (strL "13").all isDigitC = true ∧
      13 ≤ digitsToNat (strL "13") ∧ digitsToNat (strL "13") ≤ 120 ∧
      2 ≤ (strL "13").length) := by
  refine ⟨?_, ?_, ?_⟩
  · exact C3_age_extraction_amended.1 (strL "i am 25") (strL "25") (by decide)
  · exact C3_age_extraction_amended.2.1 (strL "i am 150") (strL "150")
      (by decide) (by decide)
  · exact C3_age_extraction_amended.2.2.2 { name := some (strL "Bob") }
      (strL "13") (strL "13") (by decide) (by decide) (by decide)

/-- C3, counterexample: for the message `013` the extracted numeric
substring is `013` but the root extractor stores the reformatted string
`13`; moreover the `app.py` user-message extractor rejects the in-range
value 12 and accepts only from 13 on. -/
theorem C3_counterexample :
    findNum13 (strL "013") = some (strL "013") ∧
    rootExtractAge (strL "013") = some (strL "13") ∧
    strL "13" ≠ strL "013" ∧
    extract_user_details_from_user_message { name := some (strL "Bob") }
      (strL "12") = {} ∧
    extract_user_details_from_user_message { name := some (strL "Bob") }
      (strL "13") = { age := some (strL "13") } := by decide

/-! ## Scheduler lemmas and claims C4, C9 -/

/-- One sweep keeps the counter within the cap. -/
theorem followUpSweep_le (thr now : Nat) (l : LeadSys)
    (h : l.state.followUpCount ≤ 3) :
    (followUpSweep thr now l).1.state.followUpCount ≤ 3 := by
  unfold followUpSweep
  split
  · split
    · exact h
    next hcap =>
      simp at hcap
      simp
      omega
  · exact h

/-- A lead at the cap is skipped entirely. -/
theorem followUpSweep_at_cap (thr now : Nat) (l : LeadSys)
    (h : l.state.followUpCount = 3) :
    followUpSweep thr now l = (l, none) := by
  unfold followUpSweep
  split
  · rw [if_pos]
    simp [h]
  · rfl

/-- A sweep never writes the `_activity_tracker` entry. -/
theorem followUpSweep_tracker (thr now : Nat) (l : LeadSys) :
    (followUpSweep thr now l).1.trackerTime = l.trackerTime := by
  unfold followUpSweep
  split
  · split <;> rfl
  · rfl

/-- A lead that never appears in the tracker is never swept. -/
theorem followUpSweep_no_tracker (thr now : Nat) (l : LeadSys)
    (h : l.trackerTime = none) :
    followUpSweep thr now l = (l, none) := by
  unfold followUpSweep
  rw [if_neg]
  unfold inactiveEligible
  rw [h]
  simp

/-- C4.  For every event sequence the follow-up counter never exceeds 3,
and once it has reached 3 no further follow-up message is emitted, however
many additional sweeps run. -/
theorem C4_followup_cap (thr : Nat) :
    ∀ (ops : List LeadOp) (l : LeadSys), l.state.followUpCount ≤ 3 →
      (runOps thr l ops).1.state.followUpCount ≤ 3 ∧
      (l.state.followUpCount = 3 → (runOps thr l ops).2 = 0)
  | [], l, h => ⟨h, fun _ => rfl⟩
  | LeadOp.userMsg now :: rest, l, h => by
    have hh : (record_user_activity now l).state.followUpCount ≤ 3 := h
    have ih := C4_followup_cap thr rest (record_user_activity now l) hh
    refine ⟨by simpa [runOps, applyOp] using ih.1, ?_⟩
    intro h3
    have h2 := ih.2 h3
    simp [runOps, applyOp, h2]
  | LeadOp.sweep now :: rest, l, h => by
    have hh := followUpSweep_le thr now l h
    have ih := C4_followup_cap thr rest (followUpSweep thr now l).1 hh
    refine ⟨by simpa [runOps, applyOp] using ih.1, ?_⟩
    intro h3
    have hstep := followUpSweep_at_cap thr now l h3
    have h2 := ih.2 (by rw [hstep]; exact h3)
    rw [hstep] at h2
    simp [runOps, applyOp, hstep]
    exact h2

/-- A lead at the cap used for the C4 witness. -/
def cappedLead : LeadSys :=
  { trackerTime := some 0, state := { followUpCount := 3 } }

/-- C4, witness: five sweeps against an inactive capped lead emit nothing. -/
theorem C4_witness :
    (runOps 60 cappedLead
      ((List.map LeadOp.sweep [100, 200, 300, 400, 500]))).1.state.followUpCount ≤ 3 ∧
    (runOps 60 cappedLead
      ((List.map LeadOp.sweep [100, 200, 300, 400, 500]))).2 = 0 := by
  have h := C4_followup_cap 60 (List.map LeadOp.sweep [100, 200, 300, 400, 500])
    cappedLead (by decide)
  exact ⟨h.1, h.2 (by decide)⟩

/-- The state written by one emitting sweep: counter bumped,
`last_activity` refreshed, tracker untouched. -/
def bumpFollowUp (now : Nat) (l : LeadSys) : LeadSys :=
  { trackerTime := l.trackerTime,
    state := { l.state with followUpCount := l.state.followUpCount + 1 },
    lastActivity := now }

/-- Sweep-only runs on an eligible, silent lead: each sweep below the cap
emits exactly one message, so the total is `min (#sweeps) (3 - count)`. -/
theorem sweeps_emit (thr : Nat) :
    ∀ (times : List Nat) (l : LeadSys) (t : Nat), l.trackerTime = some t →
      l.state.isActive = true → (∀ n ∈ times, t + thr < n) →
      l.state.followUpCount ≤ 3 →
      (runOps thr l (times.map LeadOp.sweep)).2 =
        min times.length (3 - l.state.followUpCount)
  | [], l, t, _, _, _, _ => by simp [runOps]
  | now :: rest, l, t, htr, hact, htimes, hle => by
    have hnow : t + thr < now := htimes now (by simp)
    have helig : inactiveEligible thr now l = true := by
      unfold inactiveEligible
      rw [htr]
      simp [hnow, hact]
    by_cases hcap : 3 ≤ l.state.followUpCount
    · have hc3 : l.state.followUpCount = 3 := Nat.le_antisymm hle hcap
      have hstep := followUpSweep_at_cap thr now l hc3
      have ih := sweeps_emit thr rest l t htr hact
        (fun n hn => htimes n (by simp [hn])) hle
      simp [runOps, applyOp, hstep, ih, hc3]
    · have hstep : followUpSweep thr now l =
          (bumpFollowUp now l,
           some (followUpText l.state.details l.state.followUpCount)) := by
        unfold followUpSweep
        rw [if_pos helig, if_neg (by simpa using hcap)]
        rfl
      have ih := sweeps_emit thr rest (bumpFollowUp now l) t htr hact
        (fun n hn => htimes n (by simp [hn])) (by simp [bumpFollowUp]; omega)
      simp only [List.map_cons, runOps, applyOp, hstep, Option.isSome_some, if_true]
      rw [ih]
      simp only [List.length_cons, bumpFollowUp]
      omega

/-- Sweep-only runs on a lead with no tracker entry do nothing at all. -/
theorem sweeps_no_tracker (thr : Nat) :
    ∀ (times : List Nat) (l : LeadSys), l.trackerTime = none →
      runOps thr l (times.map LeadOp.sweep) = (l, 0)
  | [], l, _ => rfl
  | now :: rest, l, h => by
    have hstep := followUpSweep_no_tracker thr now l h
    simp [runOps, applyOp, hstep, sweeps_no_tracker thr rest l h]

/-- C9.  Follow-up eligibility lives in the `_activity_tracker` map: sweeps
never write it, so a silent lead (tracker entry older than the threshold)
stays eligible on every sweep and receives exactly one follow-up per sweep
until the cap of 3, while a lead with no tracker entry never receives any
follow-up. -/
theorem C9_activity_tracker (thr : Nat) :
    (∀ (now : Nat) (l : LeadSys),
      (followUpSweep thr now l).1.trackerTime = l.trackerTime) ∧
    (∀ (times : List Nat) (l : LeadSys) (t : Nat), l.trackerTime = some t →
      l.state.isActive = true → l.state.followUpCount = 0 →
      (∀ n ∈ times, t + thr < n) →
      (runOps thr l (times.map LeadOp.sweep)).2 = min times.length 3) ∧
    (∀ (times : List Nat) (l : LeadSys), l.trackerTime = none →
      runOps thr l (times.map LeadOp.sweep) = (l, 0)) := by
  refine ⟨followUpSweep_tracker thr, ?_, sweeps_no_tracker thr⟩
  intro times l t htr hact hcount htimes
  have h := sweeps_emit thr times l t htr hact htimes (by omega)
  rw [hcount] at h
  simpa using h

/-- A fresh, silent, eligible lead used for the C9 witness. -/
def silentLead : LeadSys :=
  { trackerTime := some 0, state := { details := { name := some (strL "Bob") } } }

/-- C9, witness: the theorem applied to concrete runs — five sweeps on a
silent lead emit exactly three messages; a lead without a tracker entry is
untouched. -/
theorem C9_witness :
    (followUpSweep 60 100 silentLead).1.trackerTime = silentLead.trackerTime ∧
    (runOps 60 silentLead
      (List.map LeadOp.sweep [100, 200, 300, 400, 500])).2 = min 5 3 ∧
    runOps 60 ({} : LeadSys) (List.map LeadOp.sweep [100, 200]) = ({}, 0) := by
  refine ⟨(C9_activity_tracker 60).1 100 silentLead, ?_, ?_⟩
  · have h := (C9_activity_tracker 60).2.1 [100, 200, 300, 400, 500] silentLead 0
      (by decide) (by decide) (by decide) (by decide)
    simpa using h
  · exact (C9_activity_tracker 60).2.2 [100, 200] {} (by decide)

/-! ## C10: determinism of `call_agent_sync` -/

/-- C10.  `call_agent_sync` is a deterministic template renderer over the
collected details: two session states that agree on `collected_details`
produce, for the same input message, the same reply text and the same
resulting details — no other state component and no generative collaborator
influences the reply. -/
theorem C10_call_agent_sync_deterministic (st1 st2 : ConvState) (m : List Char)
    (h : st1.details = st2.details) :
    (call_agent_sync st1 m).1 = (call_agent_sync st2 m).1 ∧
    (call_agent_sync st1 m).2.details = (call_agent_sync st2 m).2.details := by
  unfold call_agent_sync
  dsimp only
  rw [h]
  by_cases hd : hasAnyDelta
      (extract_user_details_from_user_message st2.details m) = true
  · rw [if_pos hd, if_pos hd]
    exact ⟨rfl, rfl⟩
  · rw [if_neg hd, if_neg hd]
    exact ⟨rfl, h⟩

/-- A session early in the flow, for the C10 witness. -/
def demoStateA : ConvState :=
  { currentStep := strL "greeting"
    details := aliceDetails }

/-- A session late in the flow with the same details, for the C10 witness. -/
def demoStateB : ConvState :=
  { currentStep := strL "confirmation"
    details := aliceDetails
    pending := true
    followUpCount := 2 }

/-- C10, witness: two sessions differing in stage, pending flag and
follow-up count but with equal details get the identical reply. -/
theorem C10_witness :
    (call_agent_sync demoStateA (strL "hello")).1 =
      (call_agent_sync demoStateB (strL "hello")).1 := by
  exact (C10_call_agent_sync_deterministic demoStateA demoStateB (strL "hello") rfl).1

/-! ## Per-branch characterisation of the user-message extractor -/

theorem extract_name_branch {cur : Details} (m : List Char)
    (h1 : truthy cur.name = false) :
    extract_user_details_from_user_message cur m =
      { name := appExtractName (stripL (lowerL m)) } := by
  unfold extract_user_details_from_user_message
  simp [h1]

theorem extract_age_branch {cur : Details} (m : List Char)
    (h1 : truthy cur.name = true) (h2 : truthy cur.age = false) :
    extract_user_details_from_user_message cur m =
      { age := appExtractAge (stripL (lowerL m)) } := by
  unfold extract_user_details_from_user_message
  simp [h1, h2]

theorem extract_country_branch {cur : Details} (m : List Char)
    (h1 : truthy cur.name = true) (h2 : truthy cur.age = true)
    (h3 : truthy cur.country = false) :
    extract_user_details_from_user_message cur m =
      { country := appExtractCountry (stripL (lowerL m)) } := by
  unfold extract_user_details_from_user_message
  simp [h1, h2, h3]

theorem extract_interest_branch {cur : Details} (m : List Char)
    (h1 : truthy cur.name = true) (h2 : truthy cur.age = true)
    (h3 : truthy cur.country = true) (h4 : truthy cur.interest = false) :
    extract_user_details_from_user_message cur m =
      { interest := appExtractInterest (stripL (lowerL m)) } := by
  unfold extract_user_details_from_user_message
  simp [h1, h2, h3, h4]

/-- Every accepted name passes the full name validation. -/
theorem appExtractName_sound {ml n : List Char} (h : appExtractName ml = some n) :
    validNameApp n = true :=
  (appNameLoop_sound _ _ h).1

/-- Every accepted age is a non-empty digit run in `[13, 120]`, hence at
least two characters long. -/
theorem appExtractAge_sound {ml s : List Char} (h : appExtractAge ml = some s) :
    s ≠ [] ∧ s.all isDigitC = true ∧ 13 ≤ digitsToNat s ∧ digitsToNat s ≤ 120 ∧
      2 ≤ s.length := by
  unfold appExtractAge at h
  rcases appAgeLoop_sound _ _ h with ⟨⟨h13, h120⟩, hmem⟩
  have hdig : s ≠ [] ∧ s.all isDigitC = true := by
    simp only [List.mem_cons, List.mem_singleton] at hmem
    rcases hmem with hp | hp | hp | hp
    · exact searchPat_cls hp.symm
    · exact searchPat_cls hp.symm
    · exact matchHere_cls hp.symm
    · simp at hp
  exact ⟨hdig.1, hdig.2, h13, h120, length_two_of_ge13 hdig.2 h13⟩

/-- Every accepted country is longer than two characters. -/
theorem appExtractCountry_sound {ml c : List Char}
    (h : appExtractCountry ml = some c) : 2 < c.length :=
  (appCountryLoop_sound _ _ h).1

/-- Every accepted interest is longer than two characters. -/
theorem appExtractInterest_sound {ml v : List Char}
    (h : appExtractInterest ml = some v) : 2 < v.length := by
  unfold appExtractInterest at h
  split at h
  · cases h; decide
  · split at h
    · cases h; decide
    · split at h
      · cases h; decide
      · rcases appInterestLoop_sound _ _ h with ⟨g, _, he, hl, _⟩
        rw [he, titleL_length]
        exact hl

/-- C5, amended.  Monotonicity of collected slots in `app.py`: the direct
user-message extraction path never touches an already-set slot; the
agent-reply safe-update path never overwrites a slot value of length ≥ 2;
and every value the direct extractor accepts has length ≥ 2, so direct
extractions are never overwritten.  (The root agent system, by contrast,
loops back to name collection after COMPLETE, where a later message can
replace validated slots — see the counterexample.) -/
theorem C5_slot_overwrite_amended :
    (∀ (cur : Details) (m : List Char),
      (truthy cur.name = true →
        (update_collected_details cur
          (extract_user_details_from_user_message cur m)).name = cur.name) ∧
      (truthy cur.age = true →
        (update_collected_details cur
          (extract_user_details_from_user_message cur m)).age = cur.age) ∧
      (truthy cur.country = true →
        (update_collected_details cur
          (extract_user_details_from_user_message cur m)).country = cur.country) ∧
      (truthy cur.interest = true →
        (update_collected_details cur
          (extract_user_details_from_user_message cur m)).interest = cur.interest)) ∧
    (∀ cur ad : Details,
      (∀ v, cur.name = some v → 2 ≤ v.length →
        (update_collected_details cur (safeUpdateDelta cur ad)).name = some v) ∧
      (∀ v, cur.age = some v → 2 ≤ v.length →
        (update_collected_details cur (safeUpdateDelta cur ad)).age = some v) ∧
      (∀ v, cur.country = some v → 2 ≤ v.length →
        (update_collected_details cur (safeUpdateDelta cur ad)).country = some v) ∧
      (∀ v, cur.interest = some v → 2 ≤ v.length →
        (update_collected_details cur (safeUpdateDelta cur ad)).interest = some v)) ∧
    (∀ (cur : Details) (m v : List Char),
      ((extract_user_details_from_user_message cur m).name = some v → 2 ≤ v.length) ∧
      ((extract_user_details_from_user_message cur m).age = some v → 2 ≤ v.length) ∧
      ((extract_user_details_from_user_message cur m).country = some v → 2 ≤ v.length) ∧
      ((extract_user_details_from_user_message cur m).interest = some v → 2 ≤ v.length)) := by
  refine ⟨?_, fun cur ad => safe_update_preserves cur ad, ?_⟩
  · intro cur m
    refine ⟨?_, ?_, ?_, ?_⟩ <;> intro h
    · simp [update_collected_details, (extract_user_details_single_focus cur m).1 h, truthy]
    · simp [update_collected_details, (extract_user_details_single_focus cur m).2.1 h, truthy]
    · simp [update_collected_details,
        (extract_user_details_single_focus cur m).2.2.1 h, truthy]
    · simp [update_collected_details,
        (extract_user_details_single_focus cur m).2.2.2 h, truthy]
  · intro cur m v
    refine ⟨?_, ?_, ?_, ?_⟩ <;> intro h
    · by_cases h1 : truthy cur.name = true
      · rw [(extract_user_details_single_focus cur m).1 h1] at h; cases h
      · have h1f : truthy cur.name = false := by simpa using h1
        rw [extract_name_branch m h1f] at h
        have hv := appExtractName_sound h
        unfold validNameApp at hv
        simp only [Bool.and_eq_true, decide_eq_true_iff] at hv
        exact hv.1.1.1.1.1
    · by_cases h1 : truthy cur.name = true
      · by_cases h2 : truthy cur.age = true
        · rw [(extract_user_details_single_focus cur m).2.1 h2] at h; cases h
        · have h2f : truthy cur.age = false := by simpa using h2
          rw [extract_age_branch m h1 h2f] at h
          exact (appExtractAge_sound h).2.2.2.2
      · have h1f : truthy cur.name = false := by simpa using h1
        rw [extract_name_branch m h1f] at h
        simp at h
    · by_cases h1 : truthy cur.name = true
      · by_cases h2 : truthy cur.age = true
        · by_cases h3 : truthy cur.country = true
          · rw [(extract_user_details_single_focus cur m).2.2.1 h3] at h; cases h
          · have h3f : truthy cur.country = false := by simpa using h3
            rw [extract_country_branch m h1 h2 h3f] at h
            have := appExtractCountry_sound h
            omega
        · have h2f : truthy cur.age = false := by simpa using h2
          rw [extract_age_branch m h1 h2f] at h
          simp at h
      · have h1f : truthy cur.name = false := by simpa using h1
        rw [extract_name_branch m h1f] at h
        simp at h
    · by_cases h1 : truthy cur.name = true
      · by_cases h2 : truthy cur.age = true
        · by_cases h3 : truthy cur.country = true
          · by_cases h4 : truthy cur.interest = true
            · rw [(extract_user_details_single_focus cur m).2.2.2 h4] at h; cases h
            · have h4f : truthy cur.interest = false := by simpa using h4
              rw [extract_interest_branch m h1 h2 h3 h4f] at h
              have := appExtractInterest_sound h
              omega
          · have h3f : truthy cur.country = false := by simpa using h3
            rw [extract_country_branch m h1 h2 h3f] at h
            simp at h
        · have h2f : truthy cur.age = false := by simpa using h2
          rw [extract_age_branch m h1 h2f] at h
          simp at h
      · have h1f : truthy cur.name = false := by simpa using h1
        rw [extract_name_branch m h1f] at h
        simp at h

/-- C5, witness: the amended theorem at concrete data — the direct path
keeps Alice's name against a later introduction, the safe-update path keeps
it against an agent reply naming someone else, and a directly-extracted
name has length ≥ 2. -/
theorem C5_witness :
    (update_collected_details aliceDetails
      (extract_user_details_from_user_message aliceDetails
        (strL "call me Zed"))).name = aliceDetails.name ∧
    (update_collected_details aliceDetails
      (safeUpdateDelta aliceDetails
        (extract_user_details (strL "Name: Zed")))).name = some (strL "Alice") ∧
    2 ≤ (strL "Bob").length := by
  refine ⟨?_, ?_, ?_⟩
  · exact (C5_slot_overwrite_amended.1 aliceDetails (strL "call me Zed")).1 (by decide)
  · exact (C5_slot_overwrite_amended.2.1 aliceDetails
      (extract_user_details (strL "Name: Zed"))).1 (strL "Alice") (by decide) (by decide)
  · exact (C5_slot_overwrite_amended.2.2 {} (strL "my name is Bob") (strL "Bob")).1 (by decide)

/-- C5, counterexample: in the root agent system, a completed and confirmed
session falls back to name collection, where a later message replaces the
validated name Alice by Zed. -/
theorem C5_counterexample :
    (rootRun [strL "hi", strQ "i~m Alice", strL "25", strL "from France",
      strL "laptops", strL "yes"]).leadInfo.name = some (strL "Alice") ∧
    (rootRun [strL "hi", strQ "i~m Alice", strL "25", strL "from France",
      strL "laptops", strL "yes"]).leadInfo.status = strL "confirmed" ∧
    (rootRun [strL "hi", strQ "i~m Alice", strL "25", strL "from France",
      strL "laptops", strL "yes", strL "hello again",
      strL "call me Zed"]).leadInfo.name = some (strL "Zed") := by
  refine ⟨by decide, by decide, by decide⟩

/-! ## C6: the CONFIRMATION stage requires complete details -/

/-- The stage invariant of the root agent system: every stage carries the
slots collected by the stages before it. -/
def rInv (s : RSession) : Prop :=
  (s.currentStage = RStage.ageCollection → truthy s.leadInfo.name = true) ∧
  (s.currentStage = RStage.countryCollection →
    truthy s.leadInfo.name = true ∧ truthy s.leadInfo.age = true) ∧
  (s.currentStage = RStage.interestCollection →
    truthy s.leadInfo.name = true ∧ truthy s.leadInfo.age = true ∧
      truthy s.leadInfo.country = true) ∧
  ((s.currentStage = RStage.confirmation ∨ s.currentStage = RStage.complete) →
    leadInfoComplete s.leadInfo = true)

theorem truthy_some (v : List Char) : truthy (some v) = !v.isEmpty := rfl

theorem rInv_init : rInv {} := by
  unfold rInv
  refine ⟨?_, ?_, ?_, ?_⟩ <;> intro h
  · exact absurd h (by decide)
  · exact absurd h (by decide)
  · exact absurd h (by decide)
  · rcases h with h | h <;> exact absurd h (by decide)

theorem rInv_step (s : RSession) (m : List Char) (h : rInv s) : rInv (rootStep s m) := by
  obtain ⟨h1, h2, h3, h4⟩ := h
  rcases hs : s.currentStage with _ | _ | _ | _ | _ | _ | _
  case greeting =>
    simp [rInv, rootStep, rootProcessAt, greetingProcess, hs]
  case nameCollection =>
    by_cases hn : truthy (rootExtractName m) = true
    · simp [rInv, rootStep, rootProcessAt, nameCollectionProcess, hs, hn]
    · simp [rInv, rootStep, rootProcessAt, nameCollectionProcess, hs, hn]
  case ageCollection =>
    have hname := h1 hs
    by_cases ha : truthy (rootExtractAge m) = true
    · simp [rInv, rootStep, rootProcessAt, ageCollectionProcess, hs, ha, hname]
    · simp [rInv, rootStep, rootProcessAt, ageCollectionProcess, hs, ha, hname]
  case countryCollection =>
    obtain ⟨hn, ha⟩ := h2 hs
    by_cases hc : truthy (rootExtractCountry m) = true
    · simp [rInv, rootStep, rootProcessAt, countryCollectionProcess, hs, hc, hn, ha]
    · simp [rInv, rootStep, rootProcessAt, countryCollectionProcess, hs, hc, hn, ha]
  case interestCollection =>
    obtain ⟨hn, ha, hc⟩ := h3 hs
    by_cases hi : (rootExtractInterest m).isEmpty = true
    · simp [rInv, rootStep, rootProcessAt, interestCollectionProcess, hs, hi, hn, ha, hc]
    · simp [rInv, rootStep, rootProcessAt, interestCollectionProcess,
        leadInfoComplete, truthy_some, hs, hi, hn, ha, hc]
  case confirmation =>
    have hcomp := h4 (Or.inl hs)
    simp only [leadInfoComplete, Bool.and_eq_true] at hcomp
    obtain ⟨⟨⟨hn, ha⟩, hc⟩, hi⟩ := hcomp
    by_cases hok : stripL (lowerL m) ∈ rootAffirmatives
    · simp [rInv, rootStep, rootProcessAt, confirmationProcess, leadInfoComplete,
        hs, hok, hn, ha, hc, hi]
    · simp [rInv, rootStep, rootProcessAt, confirmationProcess, leadInfoComplete,
        hs, hok, hn, ha, hc, hi]
  case complete =>
    simp [rInv, rootStep, rootProcessAt, greetingProcess, hs]

theorem rootReachable_rInv {s : RSession} (h : RootReachable s) : rInv s := by
  induction h with
  | init => exact rInv_init
  | step s m _ ih => exact rInv_step s m ih

theorem foldl_reachable :
    ∀ (msgs : List (List Char)) (s : RSession), RootReachable s →
      RootReachable (msgs.foldl rootStep s)
  | [], _, h => h
  | m :: rest, s, h => foldl_reachable rest (rootStep s m) (RootReachable.step s m h)

theorem rootRun_reachable (msgs : List (List Char)) : RootReachable (rootRun msgs) :=
  foldl_reachable msgs {} RootReachable.init

/-- From a not-yet-pending session, the `/chat` handler behaves as its
fallthrough path (both for `confirm` and for other messages). -/
theorem chatStep_not_pending (st : ConvState) (rows : List CsvRow) (m : List Char)
    (hp : st.pending = false) :
    chatStep st rows m = chatFallthrough st rows m := by
  unfold chatStep
  split
  · simp [hp]
  · rfl

/-- The `/chat` fallthrough sets `pending_confirmation` only when the
resulting details are complete. -/
theorem chatFallthrough_pending_arm (st : ConvState) (rows : List CsvRow)
    (m : List Char) (hp : st.pending = false) :
    (chatFallthrough st rows m).1.pending = true →
    are_details_complete (chatFallthrough st rows m).1.details = true := by
  intro hpend
  unfold chatFallthrough at hpend ⊢
  dsimp only at hpend ⊢
  by_cases hud : hasAnyDelta (extract_user_details_from_user_message st.details m) = true
  · rw [if_pos hud] at hpend ⊢
    by_cases hcd : are_details_complete (update_collected_details st.details
        (extract_user_details_from_user_message st.details m)) = true
    · rw [if_pos hcd] at hpend ⊢
      exact hcd
    · rw [if_neg hcd] at hpend
      simp [hp] at hpend
  · rw [if_neg hud] at hpend ⊢
    by_cases hcp : are_details_complete
        (applyAgentExtraction (call_agent_sync st m)).details = true
    · rw [if_pos hcp] at hpend ⊢
      exact hcp
    · rw [if_neg hcp] at hpend
      rw [applyAgentExtraction_pending, call_agent_sync_pending] at hpend
      simp [hp] at hpend

/-- The `send_message` handler sets `pending_confirmation` only when the
resulting details are complete. -/
theorem wsStep_pending_arm (st : ConvState) (rows : List CsvRow) (m : List Char)
    (hp : st.pending = false) :
    (wsStep st rows m).1.pending = true →
    are_details_complete (wsStep st rows m).1.details = true := by
  intro hpend
  unfold wsStep at hpend ⊢
  dsimp only at hpend ⊢
  by_cases hb : (lowerL (stripL m) == strL "confirm") = true
  · rw [if_pos hb] at hpend ⊢
    by_cases hc : are_details_complete st.details = true
    · rw [if_pos hc] at hpend
      simp at hpend
    · rw [if_neg hc] at hpend
      simp [hp] at hpend
  · rw [if_neg hb] at hpend ⊢
    by_cases hsg : (suggestionKeywords.any fun k => containsSub k (lowerL (stripL m))) = true
    · rw [if_pos hsg] at hpend
      simp [hp] at hpend
    · rw [if_neg hsg] at hpend ⊢
      rw [applyAgentExtraction_pending] at hpend
      by_cases hud : hasAnyDelta (extract_user_details_from_user_message st.details m) = true
      · rw [if_pos hud] at hpend ⊢
        by_cases hcd : are_details_complete (update_collected_details st.details
            (extract_user_details_from_user_message st.details m)) = true
        · refine applyAgentExtraction_complete _ ?_
          dsimp only
          rw [if_pos hcd]
          exact hcd
        · rw [if_neg hcd] at hpend
          simp [hp] at hpend
      · rw [if_neg hud] at hpend
        rw [call_agent_sync_pending] at hpend
        simp [hp] at hpend

/-- C6.  The CONFIRMATION stage is reached only with all four slots
collected: every reachable root-agent session in the CONFIRMATION stage has
complete lead info, and the `/chat` and `send_message` handlers arm
`pending_confirmation` (issuing the confirmation summary) only when the
session's collected details are complete. -/
theorem C6_confirmation_requires_complete :
    (∀ s : RSession, RootReachable s → s.currentStage = RStage.confirmation →
      leadInfoComplete s.leadInfo = true) ∧
    (∀ (st : ConvState) (rows : List CsvRow) (m : List Char), st.pending = false →
      (chatStep st rows m).1.pending = true →
      are_details_complete (chatStep st rows m).1.details = true) ∧
    (∀ (st : ConvState) (rows : List CsvRow) (m : List Char), st.pending = false →
      (wsStep st rows m).1.pending = true →
      are_details_complete (wsStep st rows m).1.details = true) := by
  refine ⟨?_, ?_, ?_⟩
  · intro s h hstage
    exact (rootReachable_rInv h).2.2.2 (Or.inl hstage)
  · intro st rows m hp hpend
    rw [chatStep_not_pending st rows m hp] at hpend ⊢
    exact chatFallthrough_pending_arm st rows m hp hpend
  · exact fun st rows m hp => wsStep_pending_arm st rows m hp

/-- A session one slot short of complete, for the C6 witness. -/
def nearlyDone : ConvState :=
  { details := { name := some (strL "Bob"), age := some (strL "25"),
                 country := some (strL "France") } }

set_option maxRecDepth 40000 in
/-- C6, witness: the theorem applied to a concretely reached CONFIRMATION
session and to a concrete interest-completing message on both handlers. -/
theorem C6_witness :
    leadInfoComplete (rootRun [strL "hi", strQ "i~m Alice", strL "25",
      strL "from France", strL "laptops"]).leadInfo = true ∧
    are_details_complete (chatStep nearlyDone [] (strL "i want a laptop")).1.details = true ∧
    are_details_complete (wsStep nearlyDone [] (strL "i want a laptop")).1.details = true := by
  refine ⟨?_, ?_, ?_⟩
  · exact C6_confirmation_requires_complete.1 _
      (rootRun_reachable [strL "hi", strQ "i~m Alice", strL "25",
        strL "from France", strL "laptops"]) (by decide)
  · exact C6_confirmation_requires_complete.2.1 nearlyDone [] (strL "i want a laptop")
      (by decide) (by decide)
  · exact C6_confirmation_requires_complete.2.2 nearlyDone [] (strL "i want a laptop")
      (by decide) (by decide)

/-! ## C7: name extraction validation and pattern order -/

/-- C7.  Name extraction in the main app extractor: an accepted name is
alphabetic, 2–15 characters, outside the greeting/affirmation stoplist and
free of the blocked substrings; the intro patterns are tried in order and
the first pattern whose (stripped, title-cased) match passes validation
wins, later patterns being consulted only when an earlier one yields no
accepted value. -/
theorem C7_name_extraction_amended :
    (∀ (ml n : List Char), appExtractName ml = some n →
      2 ≤ n.length ∧ n.length ≤ 15 ∧ n.all isAlphaC = true ∧
      invalidNames.contains (lowerL n) = false ∧
      (nameSubstringBlock.any fun b => containsSub b (lowerL n)) = false) ∧
    (∀ (ml g : List Char), appNamePat1 ml = some g →
      validNameApp (titleL (stripL g)) = true →
      appExtractName ml = some (titleL (stripL g))) ∧
    (∀ (ml g : List Char), appNamePat1 ml = some g →
      validNameApp (titleL (stripL g)) = false →
      appExtractName ml = appNameLoop [appNamePat2 ml, appNamePat3 ml]) := by
  refine ⟨?_, ?_, ?_⟩
  · intro ml n h
    obtain ⟨hv, -⟩ := appNameLoop_sound _ n h
    simp only [validNameApp, Bool.and_eq_true, decide_eq_true_eq,
      Bool.not_eq_true'] at hv
    exact ⟨hv.1.1.1.1.1, hv.1.1.1.1.2, hv.1.1.2, hv.1.2, hv.2⟩
  · intro ml g hp1 hval
    unfold appExtractName
    rw [hp1]
    simp [appNameLoop, hval]
  · intro ml g hp1 hval
    unfold appExtractName
    rw [hp1]
    simp [appNameLoop, hval]

set_option maxRecDepth 40000 in
/-- C7, witness: the theorem applied to concrete messages exercising an
accepted first-pattern match and a rejected one. -/
theorem C7_witness :
    (appExtractName (strL "my name is bob") = some (strL "Bob") ∧
     2 ≤ (strL "Bob").length ∧ (strL "Bob").length ≤ 15 ∧
     (strL "Bob").all isAlphaC = true ∧
     invalidNames.contains (lowerL (strL "Bob")) = false) ∧
    appExtractName (strL "my name is bob") = some (titleL (stripL (strL "bob"))) ∧
    appExtractName (strL "my name is hi") =
      appNameLoop [appNamePat2 (strL "my name is hi"), appNamePat3 (strL "my name is hi")] := by
  refine ⟨⟨by decide, ?_⟩, ?_, ?_⟩
  · have h := C7_name_extraction_amended.1 (strL "my name is bob") (strL "Bob") (by decide)
    exact ⟨h.1, h.2.1, h.2.2.1, h.2.2.2.1⟩
  · exact C7_name_extraction_amended.2.1 (strL "my name is bob") (strL "bob")
      (by decide) (by decide)
  · exact C7_name_extraction_amended.2.2 (strL "my name is hi") (strL "hi")
      (by decide) (by decide)

set_option maxRecDepth 40000 in
/-- C7, counterexample to the original claim: the root-agent and graph name
extractors named by the claim apply none of the validation — the root
extractor accepts the non-alphabetic token `99` from an intro pattern, and
the graph extractor accepts the stoplisted greeting `hi`. -/
theorem C7_counterexample :
    rootExtractName (strQ "i~m 99") = some (strL "99") ∧
    (strL "99").all isAlphaC = false ∧
    graphExtractName (strL "hi") = some (strL "Hi") ∧
    invalidNames.contains (strL "hi") = true := by
  refine ⟨by decide, by decide, by decide, by decide⟩

/-! ## C8: product-interest extraction order and validation -/

/-- C8.  Product-interest extraction in the main app extractor: the category
keyword sets are checked first, in technology → fashion → home order, each
normalising to its canonical label; with no keyword hit the intent pattern
and the whole-message fallback are tried through the pattern loop, whose
acceptance rule is exactly "stripped candidate longer than two characters
and not one of yes/no/ok/sure" (title-cased on acceptance); the richer
question/filler/length-100 validation applies to the agent-reply extractor;
the root-agent extractor accepts the whole stripped message unconditionally
when no intent pattern matches. -/
theorem C8_interest_extraction_amended :
    (∀ ml : List Char,
      (techKeywords.any fun k => containsSub k ml) = true →
        appExtractInterest ml = some (strL "Technology")) ∧
    (∀ ml : List Char,
      (techKeywords.any fun k => containsSub k ml) = false →
      (fashionKeywords.any fun k => containsSub k ml) = true →
        appExtractInterest ml = some (strL "Fashion")) ∧
    (∀ ml : List Char,
      (techKeywords.any fun k => containsSub k ml) = false →
      (fashionKeywords.any fun k => containsSub k ml) = false →
      (homeKeywords.any fun k => containsSub k ml) = true →
        appExtractInterest ml = some (strL "Home & Living")) ∧
    (∀ ml : List Char,
      (techKeywords.any fun k => containsSub k ml) = false →
      (fashionKeywords.any fun k => containsSub k ml) = false →
      (homeKeywords.any fun k => containsSub k ml) = false →
        appExtractInterest ml = appInterestLoop [appInterestPat1 ml, appInterestPat2 ml]) ∧
    (∀ (g : List Char) (l : List (Option (List Char))),
      appInterestLoop (some g :: l) =
        if decide (2 < (stripL g).length) && !(interestSmallBlock.contains (stripL g)) then
          some (titleL (stripL g))
        else appInterestLoop l) ∧
    (∀ (m v : List Char), (extract_user_details m).interest = some v →
      validAgentInterest v = true) ∧
    (∀ m : List Char,
      rootFirstPat anyNotNl
        [strL "interested in ", strL "looking for ", strL "want ",
         strL "need ", strL "buying "] (stripL (lowerL m)) = none →
      rootExtractInterest m = stripL m) := by
  refine ⟨?_, ?_, ?_, ?_, ?_, ?_, ?_⟩
  · intro ml ht
    simp [appExtractInterest, ht]
  · intro ml ht hf
    simp [appExtractInterest, ht, hf]
  · intro ml ht hf hh
    simp [appExtractInterest, ht, hf, hh]
  · intro ml ht hf hh
    simp [appExtractInterest, ht, hf, hh]
  · intro g l
    rfl
  · intro m v h
    unfold extract_user_details at h
    dsimp only at h
    split at h
    · exact absurd h (by simp)
    · exact agentInterestLoop_sound _ v (by simpa using h)
  · intro m h
    unfold rootExtractInterest
    dsimp only
    rw [h]

set_option maxRecDepth 40000 in
/-- C8, witness: the theorem applied to concrete messages exercising each
category keyword, the fallback hand-off, the agent-reply validation and the
root fallback. -/
theorem C8_witness :
    appExtractInterest (strL "i love laptops") = some (strL "Technology") ∧
    appExtractInterest (strL "nice shoes") = some (strL "Fashion") ∧
    appExtractInterest (strL "kitchen stuff") = some (strL "Home & Living") ∧
    appExtractInterest (strL "books") =
      appInterestLoop [appInterestPat1 (strL "books"), appInterestPat2 (strL "books")] ∧
    validAgentInterest (strL "laptops") = true ∧
    rootExtractInterest (strL "what do you have") = stripL (strL "what do you have") := by
  refine ⟨?_, ?_, ?_, ?_, ?_, ?_⟩
  · exact C8_interest_extraction_amended.1 (strL "i love laptops") (by decide)
  · exact C8_interest_extraction_amended.2.1 (strL "nice shoes") (by decide) (by decide)
  · exact C8_interest_extraction_amended.2.2.1 (strL "kitchen stuff")
      (by decide) (by decide) (by decide)
  · exact C8_interest_extraction_amended.2.2.2.1 (strL "books")
      (by decide) (by decide) (by decide)
  · exact C8_interest_extraction_amended.2.2.2.2.2.1
      (strL "Name: Bob. Interest: laptops") (strL "laptops") (by decide)
  · exact C8_interest_extraction_amended.2.2.2.2.2.2 (strL "what do you have") (by decide)

set_option maxRecDepth 40000 in
/-- C8, counterexample to the original claim: the user-message extractor
accepts the blocklisted fillers `something` and `suggestions` as free-form
interests, and the root-agent extractor accepts a question verbatim. -/
theorem C8_counterexample :
    extract_user_details_from_user_message nearlyDone.details (strL "something") =
      { interest := some (strL "Something") } ∧
    extract_user_details_from_user_message nearlyDone.details (strL "suggestions") =
      { interest := some (strL "Suggestions") } ∧
    rootExtractInterest (strL "what do you have?") = strL "what do you have?" := by
  refine ⟨by decide, by decide, by decide⟩

end SalesAgent
